import Mathlib

/-!
Verification model of the ConflictZero repository (flight_loader.py,
flight_analysis.py, airspace_congestion.py).

Modelling conventions.

Numbers: Python floats are IEEE doubles, and every double is a rational
number, so all numeric state of the program is modelled with the rational
numbers.  The two great-circle distance functions of the source call
transcendental library routines (sin, cos, asin, atan2); their values on
float inputs are again floats, hence rationals, but the particular rational
returned depends on the float rounding of the library.  The detection
pipeline is therefore parameterised by the distance function
d : Coord to Coord to the rationals, and every structural theorem about the
pipeline is proved for an arbitrary d, which covers the concrete float
haversine as one instance.  The mathematical content of the two haversine
formulas themselves (claims about agreement of the nm and km variants and
about inverse-trigonometric domain safety) is modelled separately over the
real numbers at the end of the file.

Python semantics: int(x) truncates toward zero (pyInt); the // operator is
floor division (Int.fdiv); round is round-half-to-even (pyRound0, pyRound2);
str.split() splits on whitespace runs (pySplitWs); s.split(c) splits at
every separator (pySplitOnChar) and s.split(c, 1) at the first
(pySplitOnCharOnce); dicts are association lists in insertion order where
overwriting a key keeps its position (pyDictSet); raised exceptions are
modelled with Except.  Print statements of the source perform I/O only and
are omitted.

The Flight record (flight_loader.py) declares altitude and departure_time
as int, but flight_analysis.py explicitly tests altitude is not None and
the truthiness of departure_time, so both fields are modelled as Option;
aircraft_speed is only ever compared numerically, and the loader always
supplies a float, so it is modelled as a plain rational.
-/

attribute [local semireducible] Rat.mul Rat.inv Rat.ofScientific Rat.add Rat.sub

instance {ε α : Type} [DecidableEq ε] [DecidableEq α] : DecidableEq (Except ε α) := fun x y =>
  match x, y with
  | .ok a, .ok b => decidable_of_iff (a = b)
      ⟨congrArg Except.ok, fun h => by injection h⟩
  | .error e, .error f => decidable_of_iff (e = f)
      ⟨congrArg Except.error, fun h => by injection h⟩
  | .ok _, .error _ => isFalse (by intro hc; cases hc)
  | .error _, .ok _ => isFalse (by intro hc; cases hc)

/-- Python floor for a rational: the denominator is positive, so flooring
the fraction is flooring division of the numerator by the denominator. -/
def ratFloor (q : ℚ) : ℤ := Int.fdiv q.num q.den

/-- Python int() applied to a float: truncation toward zero. -/
def pyInt (q : ℚ) : ℤ := if 0 ≤ q then ratFloor q else -(ratFloor (-q))

/-- Python round() to an integer: nearest, ties to even. -/
def pyRound0 (q : ℚ) : ℤ :=
  let f := ratFloor q
  let r := q - f
  if r < 1/2 then f else if 1/2 < r then f + 1 else if f % 2 = 0 then f else f + 1

/-- Python round(x, 2): round half to even at two decimal places. -/
def pyRound2 (q : ℚ) : ℚ := (pyRound0 (q * 100) : ℚ) / 100

/-- Python str.split() with no argument: split on runs of whitespace,
dropping empty fields.  Tokens are kept as character lists. -/
def pySplitWsChars : List Char → List Char → List (List Char)
  | [], cur => if cur = [] then [] else [cur.reverse]
  | c :: rest, cur =>
    if c.isWhitespace then
      if cur = [] then pySplitWsChars rest [] else cur.reverse :: pySplitWsChars rest []
    else pySplitWsChars rest (c :: cur)

def pySplitWs (s : String) : List (List Char) := pySplitWsChars s.toList []

/-- Python s.split(sep): split at every separator, keeping empty fields. -/
def pySplitOnChar (sep : Char) : List Char → List (List Char)
  | [] => [[]]
  | c :: rest =>
    match pySplitOnChar sep rest with
    | [] => [[]]
    | g :: gs => if c = sep then [] :: g :: gs else (c :: g) :: gs

/-- Python s.split(sep, 1): split at the first separator only. -/
def pySplitOnCharOnce (sep : Char) : List Char → List (List Char)
  | [] => [[]]
  | c :: rest =>
    if c = sep then [[], rest]
    else
      match pySplitOnCharOnce sep rest with
      | [] => [[c]]
      | g :: gs => (c :: g) :: gs

def digitsToNat (l : List Char) : ℕ := l.foldl (fun a c => 10 * a + (c.toNat - 48)) 0

/-- Python float() on a plain decimal literal: optional sign, digits with at
most one decimal point, at least one digit; anything else fails.  (The
builtin also accepts exponents and the words inf and nan; the route strings
of this system are plain decimals, and the parsing claims only need that
failure of the numeric parse skips the token.) -/
def pyFloatChars (l : List Char) : Option ℚ :=
  let unsigned : List Char → Option ℚ := fun u =>
    match pySplitOnChar '.' u with
    | [a] => if a ≠ [] ∧ a.all Char.isDigit then some (digitsToNat a) else none
    | [a, b] =>
      if (a ++ b) ≠ [] ∧ a.all Char.isDigit ∧ b.all Char.isDigit then
        some ((digitsToNat a : ℚ) + (digitsToNat b : ℚ) / (10 ^ b.length))
      else none
    | _ => none
  match l with
  | '+' :: r => unsigned r
  | '-' :: r => (unsigned r).map Neg.neg
  | _ => unsigned l

/-- A latitude-longitude pair in degrees (section 3 of the spec). -/
abbrev Coord : Type := ℚ × ℚ

/-- The Flight record of flight_loader.py.  See the file comment for why
altitude and departure_time are Option and aircraft_speed is not. -/
structure Flight where
  acid : String
  plane_type : String
  route : String
  altitude : Option ℤ
  departure_airport : String
  arrival_airport : String
  departure_time : Option ℤ
  aircraft_speed : ℚ
  passengers : ℤ
  is_cargo : Bool
deriving DecidableEq, Repr

/-- Truthiness of an optional integer in Python: None and 0 are falsy. -/
def pyFalsyOptInt (o : Option ℤ) : Bool :=
  match o with
  | none => true
  | some n => n == 0

/-- Generic Python dict assignment on an association list: overwriting an
existing key keeps its position, a new key is appended. -/
def pyDictSet {α β : Type} [BEq α] (l : List (α × β)) (k : α) (v : β) : List (α × β) :=
  if l.any (fun p => p.1 == k) then l.map (fun p => if p.1 == k then (k, v) else p)
  else l ++ [(k, v)]

/-- Lexicographic comparison of character lists by code point, the order
Python uses to compare strings. -/
def charListLe : List Char → List Char → Bool
  | [], _ => true
  | _ :: _, [] => false
  | a :: as, b :: bs => if a < b then true else if a = b then charListLe as bs else false

def pyStrLe (a b : String) : Bool := charListLe a.toList b.toList

namespace FlightAnalysis

/-- The AIRPORT_LOCATIONS table of flight_analysis.py. -/
def AIRPORT_LOCATIONS : List (String × Coord) :=
  [ ("CYYZ", (43.68, -79.63)), ("CYVR", (49.19, -123.18)), ("CYUL", (45.47, -73.74)),
    ("CYYC", (51.11, -114.02)), ("CYOW", (45.32, -75.67)), ("CYWG", (49.91, -97.24)),
    ("CYHZ", (44.88, -63.51)), ("CYEG", (53.31, -113.58)), ("CYQB", (46.79, -71.39)),
    ("CYYJ", (48.65, -123.43)), ("CYYT", (47.62, -52.75)), ("CYXE", (52.17, -106.70)) ]

def lookupAirport (code : String) : Option Coord :=
  (AIRPORT_LOCATIONS.find? (fun p => p.1 == code)).map Prod.snd

/-- The inner parse_coord closure of flight_analysis.parse_route: parse all
but the last character as a float, then negate when the last character,
upper-cased, is S or W.  Note that the same closure handles latitudes and
longitudes, so a latitude suffixed W or a longitude suffixed S is negated. -/
def parse_coord (cs : List Char) : Option ℚ :=
  match pyFloatChars cs.dropLast with
  | none => none
  | some v =>
    let last := (cs.getLastD ' ').toUpper
    some (if last = 'S' ∨ last = 'W' then -v else v)

/-- One token of flight_analysis.parse_route: skipped without a slash;
part.split on slash must give exactly two fields (more raise ValueError,
caught and skipped); each field goes through parse_coord, failures skip. -/
def parse_token (part : List Char) : Option Coord :=
  if '/' ∈ part then
    match pySplitOnChar '/' part with
    | [lat_cs, lon_cs] =>
      match parse_coord lat_cs, parse_coord lon_cs with
      | some la, some lo => some (la, lo)
      | _, _ => none
    | _ => none
  else none

/-- flight_analysis.parse_route. -/
def parse_route (route_str : String) : List Coord :=
  if route_str = "" then [] else (pySplitWs route_str).filterMap parse_token

/-- flight_analysis.get_full_flight_path: departure airport coordinate when
the code is truthy and known, then the route waypoints, then the arrival
airport coordinate under the same condition. -/
def get_full_flight_path (flight : Flight) : List Coord :=
  (if flight.departure_airport ≠ "" then (lookupAirport flight.departure_airport).toList else [])
    ++ parse_route flight.route
    ++ (if flight.arrival_airport ≠ "" then (lookupAirport flight.arrival_airport).toList else [])

/-- flight_analysis.interpolate_position. -/
def interpolate_position (s e : Coord) (fraction : ℚ) : Coord :=
  (s.1 + (e.1 - s.1) * fraction, s.2 + (e.2 - s.2) * fraction)

/-- A 4D trajectory: association list from minute-aligned timestamp to
position, in insertion order, as a Python dict. -/
abbrev Traj : Type := List (ℤ × Coord)

/-- The per-segment loop of generate_4d_trajectory.  The state is the pair
(current_time, trajectory); d is the horizontal_distance_nm function
(see the file comment on distance parameterisation). -/
def genSegments (d : Coord → Coord → ℚ) (speed_nm_per_sec : ℚ) (time_step_sec : ℤ) :
    List (Coord × Coord) → ℚ → Traj → Traj
  | [], _, traj => traj
  | (p1, p2) :: rest, current_time, traj =>
    let dist_nm := d p1 p2
    if dist_nm = 0 then genSegments d speed_nm_per_sec time_step_sec rest current_time traj
    else
      let duration_sec := dist_nm / speed_nm_per_sec
      let steps := pyInt (duration_sec / (time_step_sec : ℚ))
      let traj' := (List.range (steps + 1).toNat).foldl (fun tr (s : ℕ) =>
        let fraction := ((s : ℚ) * (time_step_sec : ℚ)) / duration_sec
        let fraction := if 1 < fraction then 1 else fraction
        let pos := interpolate_position p1 p2 fraction
        let t_stamp := pyInt (current_time + (s : ℚ) * (time_step_sec : ℚ))
        let t_minute := Int.fdiv t_stamp 60 * 60
        pyDictSet tr t_minute pos) traj
      genSegments d speed_nm_per_sec time_step_sec rest (current_time + duration_sec) traj'

/-- flight_analysis.generate_4d_trajectory.  Returns the empty trajectory
for a falsy departure_time or a falsy or non-positive speed, or an empty
path; otherwise walks the consecutive path pairs. -/
def generate_4d_trajectory (d : Coord → Coord → ℚ) (flight : Flight) (path : List Coord)
    (time_step_sec : ℤ) : Traj :=
  if pyFalsyOptInt flight.departure_time ∨ flight.aircraft_speed = 0 ∨
      flight.aircraft_speed ≤ 0 then []
  else
    match flight.departure_time with
    | none => []
    | some dep =>
      let speed_nm_per_sec := flight.aircraft_speed / 3600
      if path = [] then []
      else genSegments d speed_nm_per_sec time_step_sec (path.zip path.tail) (dep : ℚ) []

/-- The ConflictRecord emitted by detect_loss_of_separation.  The source
formats start_time_overlap as a UTC string at the reporting boundary; the
record here keeps the raw minute bucket of first detection. -/
structure ConflictRecord where
  flight1 : String
  flight2 : String
  horizontal_nm : ℚ
  vertical_ft : ℤ
  start_time_bucket : ℤ
deriving DecidableEq, Repr

/-- The order-independent key of a flight pair: the two callsigns sorted,
as tuple(sorted((acid1, acid2))) in the source. -/
def pair_key (a b : String) : String × String :=
  if pyStrLe a b then (a, b) else (b, a)

/-- The run-scoped mutable state of the conflict scan: the set of already
flagged pairs and the list of emitted records, in order of emission. -/
structure DetState where
  active : List (String × String)
  conflicts : List ConflictRecord
deriving DecidableEq, Repr

/-- Python dict lookup where the dict was filled by assignments in list
order: the last assignment to a key wins. -/
def lookupFlight (objs : List (String × Flight)) (a : String) : Option Flight :=
  objs.foldl (fun acc kv => if kv.1 == a then some kv.2 else acc) none

/-- The vertical_ft field of a ConflictRecord: abs of the altitude
difference.  In Python this expression raises TypeError when either
altitude is None, because the subtraction is unconditional. -/
def vertical_ft_of (f1 f2 : Flight) : Except String ℤ :=
  match f1.altitude, f2.altitude with
  | some a, some b => .ok |a - b|
  | _, _ => .error "TypeError: unsupported operand types for -: NoneType and int"

/-- The body of the inner pair loop of detect_loss_of_separation (lines
247-267 of flight_analysis.py): vertical short-circuit when both altitudes
are known and at least 2000 ft apart, then the horizontal test against
5.0 nm, then the per-pair deduplication against the active set. -/
def check_pair (d : Coord → Coord → ℚ) (t : ℤ) (f1 f2 : Flight) (a1 : String) (p1 : Coord)
    (a2 : String) (p2 : Coord) (st : DetState) : Except String DetState :=
  let vertSkip : Bool :=
    match f1.altitude, f2.altitude with
    | some x, some y => decide (2000 ≤ |x - y|)
    | _, _ => false
  if vertSkip then .ok st
  else
    let dist_nm := d p1 p2
    if dist_nm < 5 then
      let key := pair_key a1 a2
      if key ∈ st.active then .ok st
      else do
        let vert ← vertical_ft_of f1 f2
        .ok ⟨st.active ++ [key],
             st.conflicts ++ [⟨a1, a2, pyRound2 dist_nm, vert, t⟩]⟩
    else .ok st

/-- The inner j-loop: compare aircraft (a1, p1) against every later
occupant of the bucket. -/
def check_inner (d : Coord → Coord → ℚ) (t : ℤ) (objs : List (String × Flight))
    (a1 : String) (p1 : Coord) (f1 : Flight) :
    List (String × Coord) → DetState → Except String DetState
  | [], st => .ok st
  | (a2, p2) :: rest, st =>
    match lookupFlight objs a2 with
    | none => .error "KeyError"
    | some f2 => do
      let st' ← check_pair d t f1 f2 a1 p1 a2 p2 st
      check_inner d t objs a1 p1 f1 rest st'

/-- The outer i-loop over the occupants of one time bucket. -/
def check_bucket (d : Coord → Coord → ℚ) (t : ℤ) (objs : List (String × Flight)) :
    List (String × Coord) → DetState → Except String DetState
  | [], st => .ok st
  | (a1, p1) :: rest, st =>
    match lookupFlight objs a1 with
    | none => .error "KeyError"
    | some f1 => do
      let st' ← check_inner d t objs a1 p1 f1 rest st
      check_bucket d t objs rest st'

/-- Appending an occupant to the bucket of time t in the inverted index,
creating the bucket at the end on first use. -/
def pbtAdd (pbt : List (ℤ × List (String × Coord))) (t : ℤ) (entry : String × Coord) :
    List (ℤ × List (String × Coord)) :=
  if pbt.any (fun p => p.1 == t) then
    pbt.map (fun p => if p.1 == t then (p.1, p.2 ++ [entry]) else p)
  else pbt ++ [(t, [entry])]

/-- One step of the trajectory-building loop of
detect_loss_of_separation: skip a flight with an empty path or an empty
trajectory, otherwise store its trajectory under its callsign. -/
def trajStep (d : Coord → Coord → ℚ) (acc : List (String × Traj)) (f : Flight) :
    List (String × Traj) :=
  let path := get_full_flight_path f
  if path = [] then acc
  else
    let traj := generate_4d_trajectory d f path 60
    if traj = [] then acc else pyDictSet acc f.acid traj

/-- One step of the index inversion of detect_loss_of_separation: insert
every sample of one flight trajectory into the time-to-occupants index. -/
def pbtFlight (pbt : List (ℤ × List (String × Coord))) (at1 : String × Traj) :
    List (ℤ × List (String × Coord)) :=
  at1.2.foldl (fun pbt tp => pbtAdd pbt tp.1 (at1.1, tp.2)) pbt

/-- flight_analysis.detect_loss_of_separation.  Builds every flight's
trajectory, inverts them into a time-to-occupants index, scans the sorted
time buckets pairwise, and deduplicates per unordered pair.  The sorted
list of flights computed by the source feeds only a print statement and is
omitted. -/
def detect_loss_of_separation (d : Coord → Coord → ℚ) (flights : List Flight) :
    Except String (List ConflictRecord) :=
  let flight_objects : List (String × Flight) := flights.map (fun f => (f.acid, f))
  let flight_trajectories : List (String × Traj) := flights.foldl (trajStep d) []
  let position_by_time : List (ℤ × List (String × Coord)) :=
    flight_trajectories.foldl pbtFlight []
  let sorted_times := List.insertionSort (fun a b : ℤ => a ≤ b) (position_by_time.map Prod.fst)
  ((sorted_times.foldlM (fun st t =>
      let aircraft_at_t := ((position_by_time.find? (fun p => p.1 == t)).map Prod.snd).getD []
      check_bucket d t flight_objects aircraft_at_t st)
    (⟨[], []⟩ : DetState) : Except String DetState)).map DetState.conflicts

end FlightAnalysis

namespace AirspaceCongestion

/-- The PositionSample record of airspace_congestion.py. -/
structure PositionSample where
  timestamp : ℤ
  latitude : ℚ
  longitude : ℚ
  acid : String
deriving DecidableEq, Repr

/-- The latitude side of one waypoint token of
airspace_congestion.parse_route: parse all but the last character as a
float and negate only when the last character, upper-cased, is S; any
other or missing suffix leaves the sign (North assumed). -/
def lat_of (lat_cs : List Char) : Option ℚ :=
  (pyFloatChars lat_cs.dropLast).map (fun lat_val =>
    if (lat_cs.getLastD ' ').toUpper = 'S' then -lat_val else lat_val)

/-- The longitude side: negate only when the suffix, upper-cased, is W;
any other or missing suffix leaves the sign (East assumed). -/
def lon_of (lon_cs : List Char) : Option ℚ :=
  (pyFloatChars lon_cs.dropLast).map (fun lon_val =>
    if (lon_cs.getLastD ' ').toUpper = 'W' then -lon_val else lon_val)

/-- One token of airspace_congestion.parse_route: skipped without a slash;
split at the first slash only; each side parses via lat_of and lon_of,
failures skip the token. -/
def parse_waypoint (part : List Char) : Option Coord :=
  if '/' ∈ part then
    match pySplitOnCharOnce '/' part with
    | [lat_cs, lon_cs] =>
      match lat_of lat_cs with
      | none => none
      | some lat_val =>
        match lon_of lon_cs with
        | none => none
        | some lon_val => some (lat_val, lon_val)
    | _ => none
  else none

/-- airspace_congestion.parse_route. -/
def parse_route (route_str : String) : List Coord :=
  if route_str.toList.all Char.isWhitespace then []
  else (pySplitWs route_str).filterMap parse_waypoint

/-- The per-segment loop of estimate_trajectory.  current_time starts as
flight.departure_time, which the source never checks against None: its
first use in integer arithmetic raises TypeError when it is None, so the
accumulator is an Option carried into an Except. -/
def estSegments (d : Coord → Coord → ℚ) (speed_knots : ℚ) (acid : String) :
    List (Coord × Coord) → Option ℤ → List PositionSample →
    Except String (List PositionSample)
  | [], _, samples => .ok samples
  | (p1, p2) :: rest, current_time, samples =>
    let distance_nm := d p1 p2
    let time_for_segment := distance_nm / speed_knots * 3600
    if time_for_segment ≤ 0 then estSegments d speed_knots acid rest current_time samples
    else
      match current_time with
      | none => .error "TypeError: unsupported operand types for +: NoneType and int"
      | some ct =>
        let num_samples := max 1 (pyInt (time_for_segment / 90)).toNat
        let samples' := samples ++ (List.range (num_samples + 1)).map (fun (j : ℕ) =>
          let t := min ((j : ℚ) / (num_samples : ℚ)) 1
          { timestamp := ct + pyInt (t * time_for_segment)
            latitude := p1.1 + t * (p2.1 - p1.1)
            longitude := p1.2 + t * (p2.2 - p1.2)
            acid := acid })
        estSegments d speed_knots acid rest (some (ct + pyInt time_for_segment)) samples'

/-- airspace_congestion.estimate_trajectory: fewer than two waypoints or a
non-positive speed yield no samples; otherwise each segment with positive
traversal time contributes max(1, trunc(time/90)) + 1 samples by linear
interpolation.  The 90-second sample interval is the constant of the
source. -/
def estimate_trajectory (d : Coord → Coord → ℚ) (flight : Flight) :
    Except String (List PositionSample) :=
  let waypoints := parse_route flight.route
  if waypoints.length < 2 then .ok []
  else if flight.aircraft_speed ≤ 0 then .ok []
  else estSegments d flight.aircraft_speed flight.acid (waypoints.zip waypoints.tail)
    flight.departure_time []

/-- airspace_congestion.get_sector: the 1 by 1 degree cell containing a
position, by flooring both coordinates. -/
def get_sector (lat lon : ℚ) : ℤ × ℤ := (ratFloor lat, ratFloor lon)

/-- airspace_congestion.get_time_window: floor of the timestamp to the
900-second window that contains it. -/
def get_time_window (timestamp : ℤ) : ℤ := Int.fdiv timestamp 900 * 900

/-- The Hotspot record of detect_congestion. -/
structure Hotspot where
  sector_lat : ℤ
  sector_lon : ℤ
  window_start : ℤ
  flight_count : ℕ
  flights : Finset String

instance : DecidableEq Hotspot := fun a b =>
  decidable_of_iff (a.sector_lat = b.sector_lat ∧ a.sector_lon = b.sector_lon ∧
      a.window_start = b.window_start ∧ a.flight_count = b.flight_count ∧
      a.flights = b.flights)
    (by cases a; cases b; simp [Hotspot.mk.injEq])

/-- The bucket key of a sample or hotspot: sector latitude, sector
longitude, window start. -/
abbrev BucketKey : Type := ℤ × ℤ × ℤ

def hotKey (h : Hotspot) : BucketKey := (h.sector_lat, h.sector_lon, h.window_start)

/-- Adding an acid to the flight set of a bucket in the aggregation map
(defaultdict(set) in the source): a missing key starts from the empty
set at the end of the insertion order. -/
def swAdd (m : List (BucketKey × Finset String)) (k : BucketKey) (acid : String) :
    List (BucketKey × Finset String) :=
  if m.any (fun p => p.1 == k) then
    m.map (fun p => if p.1 == k then (p.1, insert acid p.2) else p)
  else m ++ [(k, {acid})]

/-- The sort key order of detect_congestion: ascending window start, then
sector latitude, then sector longitude, as Python tuple comparison. -/
def sortKeyLe (h1 h2 : Hotspot) : Bool :=
  decide (h1.window_start < h2.window_start) ||
    (h1.window_start == h2.window_start &&
      (decide (h1.sector_lat < h2.sector_lat) ||
        (h1.sector_lat == h2.sector_lat && decide (h1.sector_lon ≤ h2.sector_lon))))

/-- The relation the final sort of detect_congestion orders by. -/
def hotspotLe (h1 h2 : Hotspot) : Prop := sortKeyLe h1 h2 = true

instance : DecidableRel hotspotLe := fun h1 h2 => by
  unfold hotspotLe; infer_instance

/-- airspace_congestion.detect_congestion: accumulate the distinct flights
seen per (sector, 15-minute window) bucket over all samples of all
flights, keep the buckets with strictly more than 5 distinct flights, and
sort ascending by window start, sector latitude, sector longitude. -/
def detect_congestion (d : Coord → Coord → ℚ) (flights : List Flight) :
    Except String (List Hotspot) := do
  let sector_window_flights ← flights.foldlM (fun m f => do
    let samples ← estimate_trajectory d f
    Except.ok (samples.foldl (fun m s =>
      let sec := get_sector s.latitude s.longitude
      let window_start := get_time_window s.timestamp
      swAdd m (sec.1, sec.2, window_start) f.acid) m)) []
  let hotspots := sector_window_flights.filterMap (fun p =>
    let flight_count := p.2.card
    if 5 < flight_count then
      some { sector_lat := p.1.1, sector_lon := p.1.2.1, window_start := p.1.2.2,
             flight_count := flight_count, flights := p.2 }
    else none)
  Except.ok (List.insertionSort hotspotLe hotspots)

end AirspaceCongestion

/-!
Real-number model of the great-circle distance functions.

The two haversine implementations call transcendental routines, so their
mathematical content is modelled over the real numbers.  Python raises
ValueError (math domain error) when math.sqrt receives a negative argument
or math.asin an argument outside the unit interval; the checked variants
below return Except accordingly.  math.atan2 is total.
-/

noncomputable section

/-- math.radians: degrees to radians. -/
def pyRadians (x : ℝ) : ℝ := x * Real.pi / 180

/-- math.sqrt, which raises a math domain error on negative input. -/
def pySqrt (x : ℝ) : Except String ℝ :=
  if 0 ≤ x then .ok (Real.sqrt x) else .error "math domain error"

/-- math.asin, which raises a math domain error outside the unit interval. -/
def pyAsin (x : ℝ) : Except String ℝ :=
  if -1 ≤ x ∧ x ≤ 1 then .ok (Real.arcsin x) else .error "math domain error"

/-- math.atan2 with the usual quadrant conventions; total. -/
def pyAtan2 (y x : ℝ) : ℝ :=
  if 0 < x then Real.arctan (y / x)
  else if x < 0 then
    (if 0 ≤ y then Real.arctan (y / x) + Real.pi else Real.arctan (y / x) - Real.pi)
  else if 0 < y then Real.pi / 2
  else if y < 0 then -(Real.pi / 2)
  else 0

namespace AirspaceCongestion

/-- The intermediate haversine value a of airspace_congestion.haversine_distance. -/
def hav_a (lat1 lon1 lat2 lon2 : ℝ) : ℝ :=
  let lat1_rad := pyRadians lat1
  let lat2_rad := pyRadians lat2
  let dlat := lat2_rad - lat1_rad
  let dlon := pyRadians lon2 - pyRadians lon1
  Real.sin (dlat / 2) ^ 2 + Real.cos lat1_rad * Real.cos lat2_rad * Real.sin (dlon / 2) ^ 2

/-- airspace_congestion.haversine_distance: nautical miles, Earth radius
3440.065, with c computed as 2 * asin(sqrt(a)). -/
def haversine_distance (lat1 lon1 lat2 lon2 : ℝ) : ℝ :=
  3440.065 * (2 * Real.arcsin (Real.sqrt (hav_a lat1 lon1 lat2 lon2)))

/-- The same computation with the Python domain checks of math.sqrt and
math.asin made explicit. -/
def haversine_distance_checked (lat1 lon1 lat2 lon2 : ℝ) : Except String ℝ := do
  let s ← pySqrt (hav_a lat1 lon1 lat2 lon2)
  let r ← pyAsin s
  .ok (3440.065 * (2 * r))

end AirspaceCongestion

namespace FlightAnalysis

/-- The intermediate haversine value a of flight_analysis.haversine_distance_km,
whose delta terms radian-convert the coordinate differences. -/
def hav_a (coord1 coord2 : ℝ × ℝ) : ℝ :=
  let phi1 := pyRadians coord1.1
  let phi2 := pyRadians coord2.1
  let delta_phi := pyRadians (coord2.1 - coord1.1)
  let delta_lambda := pyRadians (coord2.2 - coord1.2)
  Real.sin (delta_phi / 2) ^ 2 + Real.cos phi1 * Real.cos phi2 * Real.sin (delta_lambda / 2) ^ 2

/-- flight_analysis.haversine_distance_km: kilometers, Earth radius 6371.0,
with c computed as 2 * atan2(sqrt(a), sqrt(1 - a)). -/
def haversine_distance_km (coord1 coord2 : ℝ × ℝ) : ℝ :=
  6371.0 * (2 * pyAtan2 (Real.sqrt (hav_a coord1 coord2)) (Real.sqrt (1 - hav_a coord1 coord2)))

/-- The same computation with the Python domain checks of math.sqrt made
explicit (math.atan2 itself is total). -/
def haversine_distance_km_checked (coord1 coord2 : ℝ × ℝ) : Except String ℝ := do
  let s1 ← pySqrt (hav_a coord1 coord2)
  let s2 ← pySqrt (1 - hav_a coord1 coord2)
  .ok (6371.0 * (2 * pyAtan2 s1 s2))

/-- flight_analysis.horizontal_distance_nm: kilometers divided by 1.852. -/
def horizontal_distance_nm (coord1 coord2 : ℝ × ℝ) : ℝ :=
  haversine_distance_km coord1 coord2 / 1.852

end FlightAnalysis

end

/-- The spherical-law-of-cosines inner product sin x sin y + cos x cos y t
stays in the unit interval whenever t does. -/
theorem sin_cos_inner_bound (x y t : ℝ) (ht : -1 ≤ t) (ht' : t ≤ 1) :
    -1 ≤ Real.sin x * Real.sin y + Real.cos x * Real.cos y * t ∧
      Real.sin x * Real.sin y + Real.cos x * Real.cos y * t ≤ 1 := by
  have h1 := Real.neg_one_le_cos (x - y)
  have h2 := Real.cos_le_one (x - y)
  have h3 := Real.neg_one_le_cos (x + y)
  have h4 := Real.cos_le_one (x + y)
  rw [Real.cos_sub] at h1 h2
  rw [Real.cos_add] at h3 h4
  constructor
  · nlinarith [mul_nonneg (by linarith : (0:ℝ) ≤ 1 + t)
        (by nlinarith : (0:ℝ) ≤ 1 + (Real.cos x * Real.cos y + Real.sin x * Real.sin y)),
      mul_nonneg (by linarith : (0:ℝ) ≤ 1 - t)
        (by nlinarith : (0:ℝ) ≤ 1 - (Real.cos x * Real.cos y - Real.sin x * Real.sin y))]
  · nlinarith [mul_nonneg (by linarith : (0:ℝ) ≤ 1 + t)
        (by nlinarith : (0:ℝ) ≤ 1 - (Real.cos x * Real.cos y + Real.sin x * Real.sin y)),
      mul_nonneg (by linarith : (0:ℝ) ≤ 1 - t)
        (by nlinarith : (0:ℝ) ≤ 1 + (Real.cos x * Real.cos y - Real.sin x * Real.sin y))]

/-- The generic haversine intermediate value lies in the unit interval for
all real arguments. -/
theorem hav_form_mem (p q dl : ℝ) :
    0 ≤ Real.sin ((q - p) / 2) ^ 2 + Real.cos p * Real.cos q * Real.sin (dl / 2) ^ 2 ∧
      Real.sin ((q - p) / 2) ^ 2 + Real.cos p * Real.cos q * Real.sin (dl / 2) ^ 2 ≤ 1 := by
  have hs1 : Real.sin ((q - p) / 2) ^ 2 = 1 / 2 - Real.cos (q - p) / 2 := by
    have := Real.sin_sq_eq_half_sub ((q - p) / 2)
    rwa [show 2 * ((q - p) / 2) = q - p by ring] at this
  have hs2 : Real.sin (dl / 2) ^ 2 = 1 / 2 - Real.cos dl / 2 := by
    have := Real.sin_sq_eq_half_sub (dl / 2)
    rwa [show 2 * (dl / 2) = dl by ring] at this
  have hcs : Real.cos (q - p) = Real.cos q * Real.cos p + Real.sin q * Real.sin p :=
    Real.cos_sub q p
  have hb := sin_cos_inner_bound p q (Real.cos dl) (Real.neg_one_le_cos dl) (Real.cos_le_one dl)
  constructor
  · rw [hs1, hs2, hcs]; nlinarith [hb.2]
  · rw [hs1, hs2, hcs]; nlinarith [hb.1]

theorem AC_hav_a_mem (lat1 lon1 lat2 lon2 : ℝ) :
    0 ≤ AirspaceCongestion.hav_a lat1 lon1 lat2 lon2 ∧
      AirspaceCongestion.hav_a lat1 lon1 lat2 lon2 ≤ 1 := by
  unfold AirspaceCongestion.hav_a
  exact hav_form_mem (pyRadians lat1) (pyRadians lat2) (pyRadians lon2 - pyRadians lon1)

theorem FA_hav_a_eq (coord1 coord2 : ℝ × ℝ) :
    FlightAnalysis.hav_a coord1 coord2 =
      AirspaceCongestion.hav_a coord1.1 coord1.2 coord2.1 coord2.2 := by
  simp only [FlightAnalysis.hav_a, AirspaceCongestion.hav_a]
  have h1 : pyRadians (coord2.1 - coord1.1) / 2 =
      (pyRadians coord2.1 - pyRadians coord1.1) / 2 := by unfold pyRadians; ring
  have h2 : pyRadians (coord2.2 - coord1.2) / 2 =
      (pyRadians coord2.2 - pyRadians coord1.2) / 2 := by unfold pyRadians; ring
  rw [h1, h2]

theorem FA_hav_a_mem (coord1 coord2 : ℝ × ℝ) :
    0 ≤ FlightAnalysis.hav_a coord1 coord2 ∧ FlightAnalysis.hav_a coord1 coord2 ≤ 1 := by
  rw [FA_hav_a_eq]; exact AC_hav_a_mem _ _ _ _

/-- For a in the unit interval, asin(sqrt a) and atan2(sqrt a, sqrt(1-a))
agree: the two implementations compute the same central angle. -/
theorem arcsin_sqrt_eq_atan2 (a : ℝ) (h0 : 0 ≤ a) (h1 : a ≤ 1) :
    Real.arcsin (Real.sqrt a) = pyAtan2 (Real.sqrt a) (Real.sqrt (1 - a)) := by
  rcases lt_or_eq_of_le h1 with hlt | heq
  · have hpos : 0 < Real.sqrt (1 - a) := Real.sqrt_pos.mpr (by linarith)
    have hlt1 : Real.sqrt a < 1 := by
      have := (Real.sqrt_lt_sqrt_iff h0).mpr hlt
      rwa [Real.sqrt_one] at this
    have hmem : Real.sqrt a ∈ Set.Ioo (-1 : ℝ) 1 :=
      ⟨lt_of_lt_of_le (by norm_num) (Real.sqrt_nonneg a), hlt1⟩
    rw [Real.arcsin_eq_arctan hmem, pyAtan2, if_pos hpos]
    congr 1
    rw [Real.sq_sqrt h0]
  · subst heq
    rw [show (1:ℝ) - 1 = 0 by ring, Real.sqrt_zero, Real.sqrt_one, Real.arcsin_one, pyAtan2]
    norm_num

theorem except_ok_bind {ε α β : Type} (a : α) (f : α → Except ε β) :
    (do let x ← Except.ok a; f x : Except ε β) = f a := rfl

/-- C9: for every pair of Coordinates the intermediate haversine value lies
in the unit interval — it never leaves the domain of the inverse
trigonometric call (equivalently, clamping it to the unit interval is the
identity) — so both checked distance computations, in which the Python
domain errors of math.sqrt and math.asin are explicit, succeed and return
the unchecked value. -/
theorem spec_C9_no_domain_error (lat1 lon1 lat2 lon2 : ℝ) (coord1 coord2 : ℝ × ℝ) :
    (0 ≤ AirspaceCongestion.hav_a lat1 lon1 lat2 lon2 ∧
      AirspaceCongestion.hav_a lat1 lon1 lat2 lon2 ≤ 1) ∧
    AirspaceCongestion.haversine_distance_checked lat1 lon1 lat2 lon2 =
      .ok (AirspaceCongestion.haversine_distance lat1 lon1 lat2 lon2) ∧
    (0 ≤ FlightAnalysis.hav_a coord1 coord2 ∧ FlightAnalysis.hav_a coord1 coord2 ≤ 1) ∧
    FlightAnalysis.haversine_distance_km_checked coord1 coord2 =
      .ok (FlightAnalysis.haversine_distance_km coord1 coord2) := by
  obtain ⟨h0, h1⟩ := AC_hav_a_mem lat1 lon1 lat2 lon2
  obtain ⟨g0, g1⟩ := FA_hav_a_mem coord1 coord2
  have hs1 : Real.sqrt (AirspaceCongestion.hav_a lat1 lon1 lat2 lon2) ≤ 1 := by
    have := Real.sqrt_le_sqrt h1
    rwa [Real.sqrt_one] at this
  have hsn : (-1 : ℝ) ≤ Real.sqrt (AirspaceCongestion.hav_a lat1 lon1 lat2 lon2) :=
    le_trans (by norm_num) (Real.sqrt_nonneg _)
  refine ⟨⟨h0, h1⟩, ?_, ⟨g0, g1⟩, ?_⟩
  · simp [AirspaceCongestion.haversine_distance_checked, pySqrt, pyAsin, h0, hs1, hsn,
      AirspaceCongestion.haversine_distance, except_ok_bind]
  · simp [FlightAnalysis.haversine_distance_km_checked, pySqrt, g0,
      (by linarith : (0:ℝ) ≤ 1 - FlightAnalysis.hav_a coord1 coord2),
      FlightAnalysis.haversine_distance_km, except_ok_bind]

/-- C6 (amended): the nautical-mile and kilometer haversines compute the
same central angle, but their radius constants are not related by the
1.852 conversion exactly (3440.065 times 1.852 is 6371.00038, not 6371),
so the two distances are proportional with the constant factor
3440.065 * 1.852 / 6371 rather than equal: for all coordinates,
6371 * haversine_distance = 3440.065 * 1.852 * horizontal_distance_nm. -/
theorem spec_C6_proportional (lat1 lon1 lat2 lon2 : ℝ) :
    6371 * AirspaceCongestion.haversine_distance lat1 lon1 lat2 lon2 =
      3440.065 * 1.852 * FlightAnalysis.horizontal_distance_nm (lat1, lon1) (lat2, lon2) := by
  obtain ⟨h0, h1⟩ := AC_hav_a_mem lat1 lon1 lat2 lon2
  have hfa : FlightAnalysis.hav_a (lat1, lon1) (lat2, lon2) =
      AirspaceCongestion.hav_a lat1 lon1 lat2 lon2 := FA_hav_a_eq (lat1, lon1) (lat2, lon2)
  have hangle := arcsin_sqrt_eq_atan2 (AirspaceCongestion.hav_a lat1 lon1 lat2 lon2) h0 h1
  unfold FlightAnalysis.horizontal_distance_nm FlightAnalysis.haversine_distance_km
  unfold AirspaceCongestion.haversine_distance
  rw [hfa, hangle]
  ring

theorem AC_antipodal_val :
    AirspaceCongestion.haversine_distance 0 0 0 180 = 3440.065 * Real.pi := by
  have h0 : pyRadians 0 = 0 := by simp [pyRadians]
  have h180 : pyRadians 180 = Real.pi := by
    unfold pyRadians
    rw [mul_comm, mul_div_assoc]
    norm_num
  have ha : AirspaceCongestion.hav_a 0 0 0 180 = 1 := by
    simp only [AirspaceCongestion.hav_a, h0, h180]
    norm_num [Real.sin_pi_div_two]
  unfold AirspaceCongestion.haversine_distance
  rw [ha, Real.sqrt_one, Real.arcsin_one]
  ring

theorem FA_antipodal_val :
    FlightAnalysis.horizontal_distance_nm (0, 0) (0, 180) = 6371 * Real.pi / 1.852 := by
  have h0 : pyRadians 0 = 0 := by simp [pyRadians]
  have h180 : pyRadians 180 = Real.pi := by
    unfold pyRadians
    rw [mul_comm, mul_div_assoc]
    norm_num
  have ha : FlightAnalysis.hav_a (0, 0) (0, 180) = 1 := by
    rw [FA_hav_a_eq]
    simp only [AirspaceCongestion.hav_a, h0, h180]
    norm_num [Real.sin_pi_div_two]
  have hat : pyAtan2 1 0 = Real.pi / 2 := by unfold pyAtan2; norm_num
  unfold FlightAnalysis.horizontal_distance_nm FlightAnalysis.haversine_distance_km
  rw [ha]
  norm_num [hat]
  ring

/-- C6 (counterexample): at the antipodal pair (0,0), (0,180) the
nautical-mile haversine and the kilometer haversine divided by 1.852
differ by more than 1/2000 of a nautical mile — far beyond floating-point
rounding — because 3440.065 * 1.852 is 6371.00038, not 6371. -/
theorem spec_C6_counterexample :
    AirspaceCongestion.haversine_distance 0 0 0 180 ≠
      FlightAnalysis.horizontal_distance_nm (0, 0) (0, 180) ∧
    1 / 2000 < |AirspaceCongestion.haversine_distance 0 0 0 180 -
      FlightAnalysis.horizontal_distance_nm (0, 0) (0, 180)| := by
  rw [AC_antipodal_val, FA_antipodal_val]
  have hpi := Real.pi_gt_three
  have hc : (3440.065 : ℝ) - 6371 / 1.852 > 0 := by norm_num
  constructor
  · intro h
    have hz : ((3440.065 : ℝ) - 6371 / 1.852) * Real.pi = 0 := by
      rw [sub_mul]
      rw [div_mul_eq_mul_div]
      linarith
    nlinarith
  · have hval : 3440.065 * Real.pi - 6371 * Real.pi / 1.852 =
        ((3440.065 : ℝ) - 6371 / 1.852) * Real.pi := by ring
    rw [hval, abs_of_pos (by nlinarith)]
    nlinarith

/-!
Bridge lemmas between the executable Python-style arithmetic and the
Mathlib floor, and concrete fixtures for witnesses.
-/

theorem ratFloor_eq_floor (q : ℚ) : ratFloor q = ⌊q⌋ := by
  rw [ratFloor, Rat.floor_def]
  exact Int.fdiv_eq_ediv _ (Int.natCast_nonneg _)

theorem pyInt_of_nonneg {q : ℚ} (h : 0 ≤ q) : pyInt q = ⌊q⌋ := by
  rw [pyInt, if_pos h, ratFloor_eq_floor]

theorem pyInt_intCast (n : ℤ) : pyInt (n : ℚ) = n := by
  rcases le_or_lt 0 (n : ℚ) with h | h
  · rw [pyInt_of_nonneg h, Int.floor_intCast]
  · rw [pyInt, if_neg (not_le.mpr h), ratFloor_eq_floor]
    rw [show (-(n : ℚ)) = ((-n : ℤ) : ℚ) by push_cast; ring, Int.floor_intCast]
    ring

theorem pyInt_eq_zero_of_mem {q : ℚ} (h0 : 0 ≤ q) (h1 : q < 1) : pyInt q = 0 := by
  rw [pyInt_of_nonneg h0]
  exact Int.floor_eq_zero_iff.mpr ⟨h0, h1⟩

/-- A simple computable distance function used by the concrete witnesses:
distance 0 between equal coordinates, 1 otherwise.  The structural theorems
hold for every distance function; this one makes the scenarios small. -/
def dOne : Coord → Coord → ℚ := fun p q => if p = q then 0 else 1

/-- A concrete simulatable flight used by the witnesses. -/
def flightA : Flight :=
  { acid := "A", plane_type := "Boeing 737-800", route := "10N/20E 30N/40E",
    altitude := some 30000, departure_airport := "", arrival_airport := "",
    departure_time := some 60, aircraft_speed := 3600, passengers := 100, is_cargo := false }

def flightB : Flight := { flightA with acid := "B" }

def flightANoAlt : Flight := { flightA with altitude := none }

def flightBHigh : Flight := { flightB with altitude := some 34000 }

def flightNoDep : Flight := { flightA with departure_time := none }

/-- C10: a flight whose departure_time is None or 0 gets the empty
trajectory from generate_4d_trajectory even when the path still has at
least two points at nonzero distance and the speed is positive, so it is
silently excluded from loss-of-separation detection. -/
theorem spec_C10_falsy_departure_excluded (d : Coord → Coord → ℚ) (f : Flight)
    (p q : Coord) (rest : List Coord)
    (hdep : f.departure_time = none ∨ f.departure_time = some 0)
    (hsep : d p q ≠ 0) (hspd : 0 < f.aircraft_speed) :
    FlightAnalysis.generate_4d_trajectory d f (p :: q :: rest) 60 = [] := by
  unfold FlightAnalysis.generate_4d_trajectory
  rcases hdep with h | h <;> rw [h] <;> simp [pyFalsyOptInt]

theorem spec_C10_witness :
    FlightAnalysis.generate_4d_trajectory dOne flightNoDep [(10, 20), (30, 40)] 60 = [] :=
  spec_C10_falsy_departure_excluded dOne flightNoDep (10, 20) (30, 40) []
    (Or.inl rfl) (by decide) (by decide)

/-- C2 (failing input): with one altitude missing, the pair falls through
to the horizontal check as the spec says, but flagging the conflict then
evaluates abs(altitude1 - altitude2) unconditionally, which raises
TypeError, so the detection run fails instead of completing. -/
theorem spec_C2_missing_altitude_raises :
    FlightAnalysis.detect_loss_of_separation dOne [flightANoAlt, flightB] =
      .error "TypeError: unsupported operand types for -: NoneType and int" := by decide

/-- C8 (counterexample): flight_analysis.parse_route negates a latitude
for the non-S suffix W and a longitude for the non-W suffix S, because the
shared parse_coord closure negates on either letter for both components;
the claim says the sign would have been left North and East. -/
theorem spec_C8_counterexample :
    FlightAnalysis.parse_route "10W/20S" = [(-10, -20)] ∧
      ((-10 : ℚ), (-20 : ℚ)) ≠ ((10 : ℚ), (20 : ℚ)) := by decide

/-- C8 (amended): both route parsers skip any token without a slash and any
token whose numeric part fails to parse, never raising.
airspace_congestion.parse_route defaults exactly as the claim says: the
latitude is negated only for an S suffix and the longitude only for a W
suffix.  flight_analysis.parse_route instead negates either component
whenever its suffix is S or W, because one closure serves both sides: a
latitude suffixed W, or a longitude suffixed S, is negated rather than
defaulted to North or East. -/
theorem spec_C8_amended :
    (∀ part : List Char, '/' ∉ part →
      FlightAnalysis.parse_token part = none ∧ AirspaceCongestion.parse_waypoint part = none) ∧
    (∀ part lat_cs lon_cs : List Char, pySplitOnChar '/' part = [lat_cs, lon_cs] →
      (FlightAnalysis.parse_coord lat_cs = none ∨ FlightAnalysis.parse_coord lon_cs = none) →
      FlightAnalysis.parse_token part = none) ∧
    (∀ part lat_cs lon_cs : List Char, pySplitOnCharOnce '/' part = [lat_cs, lon_cs] →
      (AirspaceCongestion.lat_of lat_cs = none ∨ AirspaceCongestion.lon_of lon_cs = none) →
      AirspaceCongestion.parse_waypoint part = none) ∧
    (∀ cs : List Char, pyFloatChars cs.dropLast = none →
      FlightAnalysis.parse_coord cs = none ∧ AirspaceCongestion.lat_of cs = none ∧
        AirspaceCongestion.lon_of cs = none) ∧
    (∀ (cs : List Char) (v : ℚ), pyFloatChars cs.dropLast = some v →
      ((cs.getLastD ' ').toUpper ≠ 'S' → AirspaceCongestion.lat_of cs = some v) ∧
      ((cs.getLastD ' ').toUpper = 'S' → AirspaceCongestion.lat_of cs = some (-v)) ∧
      ((cs.getLastD ' ').toUpper ≠ 'W' → AirspaceCongestion.lon_of cs = some v) ∧
      ((cs.getLastD ' ').toUpper = 'W' → AirspaceCongestion.lon_of cs = some (-v))) ∧
    (∀ (cs : List Char) (v : ℚ), pyFloatChars cs.dropLast = some v →
      (((cs.getLastD ' ').toUpper = 'S' ∨ (cs.getLastD ' ').toUpper = 'W') →
        FlightAnalysis.parse_coord cs = some (-v)) ∧
      (¬((cs.getLastD ' ').toUpper = 'S' ∨ (cs.getLastD ' ').toUpper = 'W') →
        FlightAnalysis.parse_coord cs = some v)) := by
  refine ⟨?_, ?_, ?_, ?_, ?_, ?_⟩
  · intro part h
    constructor
    · unfold FlightAnalysis.parse_token
      rw [if_neg h]
    · unfold AirspaceCongestion.parse_waypoint
      rw [if_neg h]
  · intro part lat_cs lon_cs hsplit hfail
    unfold FlightAnalysis.parse_token
    by_cases hmem : '/' ∈ part
    · rw [if_pos hmem, hsplit]
      rcases hfail with h | h
      · simp [h]
      · cases hl : FlightAnalysis.parse_coord lat_cs <;> simp [h, hl]
    · rw [if_neg hmem]
  · intro part lat_cs lon_cs hsplit hfail
    unfold AirspaceCongestion.parse_waypoint
    by_cases hmem : '/' ∈ part
    · rw [if_pos hmem, hsplit]
      rcases hfail with h | h
      · simp [h]
      · cases hl : AirspaceCongestion.lat_of lat_cs <;> simp [h, hl]
    · rw [if_neg hmem]
  · intro cs h
    refine ⟨?_, ?_, ?_⟩
    · unfold FlightAnalysis.parse_coord
      rw [h]
    · unfold AirspaceCongestion.lat_of
      rw [h]; rfl
    · unfold AirspaceCongestion.lon_of
      rw [h]; rfl
  · intro cs v h
    refine ⟨fun hs => ?_, fun hs => ?_, fun hs => ?_, fun hs => ?_⟩
    · unfold AirspaceCongestion.lat_of
      rw [h, Option.map_some', if_neg hs]
    · unfold AirspaceCongestion.lat_of
      rw [h, Option.map_some', if_pos hs]
    · unfold AirspaceCongestion.lon_of
      rw [h, Option.map_some', if_neg hs]
    · unfold AirspaceCongestion.lon_of
      rw [h, Option.map_some', if_pos hs]
  · intro cs v h
    constructor <;> intro hs
    · unfold FlightAnalysis.parse_coord
      rw [h]
      simp only []
      rw [if_pos hs]
    · unfold FlightAnalysis.parse_coord
      rw [h]
      simp only []
      rw [if_neg hs]

theorem spec_C8_amended_witness :
    FlightAnalysis.parse_token "noslash".toList = none ∧
      AirspaceCongestion.parse_waypoint "noslash".toList = none ∧
      FlightAnalysis.parse_token "x1y/20E".toList = none ∧
      AirspaceCongestion.lat_of "10X".toList = some 10 ∧
      AirspaceCongestion.lon_of "20S".toList = some 20 ∧
      FlightAnalysis.parse_coord "20S".toList = some (-20) :=
  ⟨(spec_C8_amended.1 "noslash".toList (by decide)).1,
   (spec_C8_amended.1 "noslash".toList (by decide)).2,
   spec_C8_amended.2.1 "x1y/20E".toList "x1y".toList "20E".toList (by decide)
     (Or.inl (by decide)),
   (spec_C8_amended.2.2.2.2.1 "10X".toList 10 (by decide)).1 (by decide),
   ((spec_C8_amended.2.2.2.2.1 "20S".toList 20 (by decide)).2.2.1 (by decide)),
   (spec_C8_amended.2.2.2.2.2 "20S".toList 20 (by decide)).1 (Or.inl (by decide))⟩

theorem pyInt_zero : pyInt 0 = 0 := by
  have h := pyInt_intCast 0
  simpa using h

theorem range_map_getLast {α : Type} (g : ℕ → α) (n : ℕ) :
    ((List.range (n + 1)).map g).getLast? = some (g n) := by
  rw [List.range_succ, List.map_append]
  simp

/-- Modelled from the spec, section 4.3 as amended by the source of
estimate_trajectory: sample j of a segment of duration T starting at time
c uses the fraction min(1, j / steps) (not the claimed s times cadence
over duration) and the timestamp c + trunc(fraction times T) (truncation,
not rounding). -/
def specSampleFormula (T : ℚ) (steps : ℕ) (c : ℤ) (p q : Coord) (acid : String) (j : ℕ) :
    AirspaceCongestion.PositionSample :=
  { timestamp := c + pyInt (min ((j : ℚ) / (steps : ℚ)) 1 * T)
    latitude := p.1 + min ((j : ℚ) / (steps : ℚ)) 1 * (q.1 - p.1)
    longitude := p.2 + min ((j : ℚ) / (steps : ℚ)) 1 * (q.2 - p.2)
    acid := acid }

/-- C7 (counterexample): a segment of positive duration (1 second at 3600
knots over 1 nautical mile) gives generate_4d_trajectory exactly one
sample, the segment start, and the endpoint is absent: the claimed
steps = max(1, floor(duration / cadence)) lower bound and the at-least-2
samples-including-endpoint property fail for this Trajectory
Reconstructor. -/
theorem spec_C7_counterexample :
    (0 : ℚ) < dOne (10, 20) (30, 40) / (flightA.aircraft_speed / 3600) ∧
    FlightAnalysis.generate_4d_trajectory dOne flightA [(10, 20), (30, 40)] 60 =
      [(60, (10, 20))] ∧
    ((30 : ℚ), (40 : ℚ)) ∉
      (FlightAnalysis.generate_4d_trajectory dOne flightA [(10, 20), (30, 40)] 60).map
        Prod.snd := by decide

/-- C7 (amended): the congestion-side reconstructor estimate_trajectory
does sample each positive-duration segment at
steps = max(1, trunc(duration / 90)) with at least two samples: sample j
sits at fraction min(1, j / steps) — not the claimed s times cadence over
duration — with timestamp start + trunc(fraction times duration) —
truncation, not rounding; sample 0 is the segment start and sample steps
the endpoint.  The conflict-side reconstructor generate_4d_trajectory
instead uses steps = trunc(duration / 60) with no lower bound, so a
segment shorter than its 60-second cadence contributes exactly one
sample, the segment start, and the endpoint is not sampled. -/
theorem spec_C7_amended (d : Coord → Coord → ℚ) (f : Flight) (p q : Coord) (c : ℤ)
    (hdep : f.departure_time = some c) (hc : c ≠ 0) (hspd : 0 < f.aircraft_speed)
    (hroute : AirspaceCongestion.parse_route f.route = [p, q])
    (hT : 0 < d p q / f.aircraft_speed * 3600) :
    (AirspaceCongestion.estimate_trajectory d f = .ok
        ((List.range (max 1 (pyInt (d p q / f.aircraft_speed * 3600 / 90)).toNat + 1)).map
          (specSampleFormula (d p q / f.aircraft_speed * 3600)
            (max 1 (pyInt (d p q / f.aircraft_speed * 3600 / 90)).toNat) c p q f.acid)) ∧
      2 ≤ max 1 (pyInt (d p q / f.aircraft_speed * 3600 / 90)).toNat + 1 ∧
      specSampleFormula (d p q / f.aircraft_speed * 3600)
          (max 1 (pyInt (d p q / f.aircraft_speed * 3600 / 90)).toNat) c p q f.acid 0 =
        { timestamp := c, latitude := p.1, longitude := p.2, acid := f.acid } ∧
      specSampleFormula (d p q / f.aircraft_speed * 3600)
          (max 1 (pyInt (d p q / f.aircraft_speed * 3600 / 90)).toNat) c p q f.acid
          (max 1 (pyInt (d p q / f.aircraft_speed * 3600 / 90)).toNat) =
        { timestamp := c + pyInt (d p q / f.aircraft_speed * 3600), latitude := q.1,
          longitude := q.2, acid := f.acid }) ∧
    (d p q / (f.aircraft_speed / 3600) < 60 →
      FlightAnalysis.generate_4d_trajectory d f [p, q] 60 = [(Int.fdiv c 60 * 60, p)]) := by
  have hstep1 : 1 ≤ max 1 (pyInt (d p q / f.aircraft_speed * 3600 / 90)).toNat :=
    Nat.le_max_left _ _
  have hsne : ((max 1 (pyInt (d p q / f.aircraft_speed * 3600 / 90)).toNat : ℕ) : ℚ) ≠ 0 := by
    have hne : (max 1 (pyInt (d p q / f.aircraft_speed * 3600 / 90)).toNat : ℕ) ≠ 0 := by omega
    exact_mod_cast hne
  constructor
  · refine ⟨?_, by omega, ?_, ?_⟩
    · unfold AirspaceCongestion.estimate_trajectory
      rw [hroute]
      rw [if_neg (by norm_num)]
      rw [if_neg (not_le.mpr hspd)]
      show AirspaceCongestion.estSegments d f.aircraft_speed f.acid [(p, q)]
        f.departure_time [] = _
      rw [hdep]
      simp only [AirspaceCongestion.estSegments]
      rw [if_neg (not_le.mpr hT)]
      rfl
    · unfold specSampleFormula
      norm_num [pyInt_zero]
    · unfold specSampleFormula
      rw [div_self hsne]
      simp only [min_self, one_mul]
      simp [AirspaceCongestion.PositionSample.mk.injEq]
  · intro hdur
    have hd0 : d p q ≠ 0 := fun h => by rw [h] at hT; norm_num at hT
    have hdpos : 0 < d p q := by
      rcases lt_trichotomy (d p q) 0 with h | h | h
      · exfalso
        have : d p q / f.aircraft_speed * 3600 ≤ 0 := by
          apply mul_nonpos_of_nonpos_of_nonneg
          · exact div_nonpos_of_nonpos_of_nonneg h.le hspd.le
          · norm_num
        linarith
      · exact absurd h hd0
      · exact h
    unfold FlightAnalysis.generate_4d_trajectory
    rw [hdep]
    rw [if_neg (by
      intro hor
      rcases hor with h | h | h
      · simp [pyFalsyOptInt] at h
        exact hc h
      · exact hspd.ne' h
      · exact absurd h (not_le.mpr hspd))]
    show FlightAnalysis.genSegments d (f.aircraft_speed / 3600) 60 [(p, q)] ((c : ℤ) : ℚ) [] = _
    simp only [FlightAnalysis.genSegments]
    rw [if_neg hd0]
    have hsteps : pyInt (d p q / (f.aircraft_speed / 3600) / ((60 : ℤ) : ℚ)) = 0 := by
      apply pyInt_eq_zero_of_mem
      · refine div_nonneg (div_nonneg hdpos.le (by positivity)) (by norm_num)
      · have h60 : ((60 : ℤ) : ℚ) = (60 : ℚ) := by norm_num
        rw [h60, div_lt_one (by norm_num)]
        exact hdur
    rw [hsteps]
    rw [show ((0 : ℤ) + 1).toNat = 1 from rfl, show List.range 1 = [(0 : ℕ)] from rfl]
    simp only [List.foldl_cons, List.foldl_nil]
    unfold pyDictSet FlightAnalysis.interpolate_position
    simp only [List.any_nil, Bool.false_eq_true, if_false, List.nil_append,
      CharP.cast_eq_zero, zero_mul, zero_div, add_zero, mul_zero]
    norm_num [pyInt_intCast]

theorem spec_C7_amended_witness :
    (2 ≤ max 1 (pyInt (dOne (10, 20) (30, 40) / flightA.aircraft_speed * 3600 / 90)).toNat + 1) ∧
    FlightAnalysis.generate_4d_trajectory dOne flightA [(10, 20), (30, 40)] 60 =
      [(Int.fdiv 60 60 * 60, (10, 20))] :=
  ⟨(spec_C7_amended dOne flightA (10, 20) (30, 40) 60 rfl (by decide) (by decide)
      (by decide) (by decide)).1.2.1,
   (spec_C7_amended dOne flightA (10, 20) (30, 40) 60 rfl (by decide) (by decide)
      (by decide) (by decide)).2 (by decide)⟩

/-!
Supporting lemmas for the loss-of-separation claims: key sets of the
association lists stay duplicate-free, trajectories depend only on the
fields the source reads, and the inverted index of two identical
trajectories is computed in closed form.
-/

theorem except_bind_ok {ε α : Type} (x : Except ε α) :
    (do let a ← x; Except.ok a : Except ε α) = x := by
  cases x <;> rfl

theorem foldl_preserve {α β : Type} (P : β → Prop) (f : β → α → β)
    (hf : ∀ b a, P b → P (f b a)) : ∀ (l : List α) (b : β), P b → P (l.foldl f b)
  | [], b, hb => hb
  | a :: l, b, hb => foldl_preserve P f hf l (f b a) (hf b a hb)

theorem pyDictSet_map_fst_of_any {α β : Type} [BEq α] [LawfulBEq α]
    (l : List (α × β)) (k : α) (v : β) (h : l.any (fun p => p.1 == k) = true) :
    (pyDictSet l k v).map Prod.fst = l.map Prod.fst := by
  unfold pyDictSet
  rw [if_pos h, List.map_map]
  apply List.map_congr_left
  intro p _
  by_cases hp : p.1 == k
  · simp only [Function.comp_apply, hp, if_pos]
    exact (eq_of_beq hp).symm
  · simp only [Function.comp_apply, hp, if_neg]
    simp [hp]

theorem pyDictSet_map_fst_of_not_any {α β : Type} [BEq α] [LawfulBEq α]
    (l : List (α × β)) (k : α) (v : β) (h : l.any (fun p => p.1 == k) = false) :
    (pyDictSet l k v).map Prod.fst = l.map Prod.fst ++ [k] := by
  unfold pyDictSet
  rw [if_neg (by simp [h]), List.map_append]
  rfl

theorem pyDictSet_nodup {α β : Type} [BEq α] [LawfulBEq α]
    (l : List (α × β)) (k : α) (v : β) (h : (l.map Prod.fst).Nodup) :
    ((pyDictSet l k v).map Prod.fst).Nodup := by
  cases hany : l.any (fun p => p.1 == k)
  · rw [pyDictSet_map_fst_of_not_any l k v hany]
    rw [List.nodup_append]
    refine ⟨h, List.nodup_singleton _, ?_⟩
    intro a ha hb
    rw [List.mem_singleton] at hb
    subst hb
    rw [List.any_eq_false] at hany
    rcases List.mem_map.mp ha with ⟨p, hp, rfl⟩
    exact hany p hp (by simp)
  · rw [pyDictSet_map_fst_of_any l k v hany]
    exact h

namespace FlightAnalysis

theorem genSegments_nodup (d : Coord → Coord → ℚ) (spd : ℚ) (ts : ℤ) :
    ∀ (segs : List (Coord × Coord)) (ct : ℚ) (traj : Traj),
      (traj.map Prod.fst).Nodup → ((genSegments d spd ts segs ct traj).map Prod.fst).Nodup
  | [], _, _, h => h
  | (p1, p2) :: rest, ct, traj, h => by
    unfold genSegments
    by_cases hd : d p1 p2 = 0
    · rw [if_pos hd]
      exact genSegments_nodup d spd ts rest ct traj h
    · rw [if_neg hd]
      apply genSegments_nodup
      apply foldl_preserve (fun tr => (List.map Prod.fst tr).Nodup)
      · intro b a hb
        exact pyDictSet_nodup _ _ _ hb
      · exact h

theorem gen_keys_nodup (d : Coord → Coord → ℚ) (f : Flight) (path : List Coord) (ts : ℤ) :
    ((generate_4d_trajectory d f path ts).map Prod.fst).Nodup := by
  unfold generate_4d_trajectory
  split
  · exact List.nodup_nil
  · split
    · exact List.nodup_nil
    · split
      · exact List.nodup_nil
      · exact genSegments_nodup d _ ts _ _ [] List.nodup_nil

theorem gen_congr (d : Coord → Coord → ℚ) (f1 f2 : Flight) (path : List Coord) (ts : ℤ)
    (hdep : f2.departure_time = f1.departure_time)
    (hspd : f2.aircraft_speed = f1.aircraft_speed) :
    generate_4d_trajectory d f2 path ts = generate_4d_trajectory d f1 path ts := by
  unfold generate_4d_trajectory
  rw [hdep, hspd]

theorem gen_nil (d : Coord → Coord → ℚ) (f : Flight) (ts : ℤ) :
    generate_4d_trajectory d f [] ts = [] := by
  unfold generate_4d_trajectory
  split
  · rfl
  · split
    · rfl
    · rw [if_pos rfl]

end FlightAnalysis

namespace FlightAnalysis

theorem pbt_fresh (a : String) :
    ∀ (T : Traj) (pbt0 : List (ℤ × List (String × Coord))),
      (∀ t ∈ T.map Prod.fst, pbt0.any (fun p => p.1 == t) = false) →
      (T.map Prod.fst).Nodup →
      T.foldl (fun pbt tp => pbtAdd pbt tp.1 (a, tp.2)) pbt0 =
        pbt0 ++ T.map (fun tp => (tp.1, [(a, tp.2)]))
  | [], pbt0, _, _ => by simp
  | (t, pos) :: rest, pbt0, hfresh, hnd => by
    rw [List.foldl_cons]
    have hstep : pbtAdd pbt0 t (a, pos) = pbt0 ++ [(t, [(a, pos)])] := by
      unfold pbtAdd
      rw [if_neg (by simp [hfresh t (by simp)])]
    rw [hstep]
    have hnd' : (rest.map Prod.fst).Nodup := (List.nodup_cons.mp (by simpa using hnd)).2
    have htne : t ∉ rest.map Prod.fst := (List.nodup_cons.mp (by simpa using hnd)).1
    rw [pbt_fresh a rest (pbt0 ++ [(t, [(a, pos)])]) ?_ hnd']
    · simp
    · intro t' ht'
      rw [List.any_append]
      have h1 : pbt0.any (fun p => p.1 == t') = false := hfresh t' (by simp [ht'])
      have h2 : t ≠ t' := fun h => htne (h ▸ ht')
      simp [h1, h2]

theorem pbt_update (a1 a2 : String) :
    ∀ (todo done : List (ℤ × Coord)),
      (((done ++ todo).map Prod.fst).Nodup) →
      todo.foldl (fun pbt tp => pbtAdd pbt tp.1 (a2, tp.2))
        (done.map (fun tp => (tp.1, [(a1, tp.2), (a2, tp.2)])) ++
          todo.map (fun tp => (tp.1, [(a1, tp.2)]))) =
        (done ++ todo).map (fun tp => (tp.1, [(a1, tp.2), (a2, tp.2)]))
  | [], done, _ => by simp
  | (t, pos) :: rest, done, hnd => by
    have hndflat : ((done.map Prod.fst) ++ t :: rest.map Prod.fst).Nodup := by
      simpa using hnd
    have htdone : t ∉ done.map Prod.fst := by
      rw [List.nodup_append] at hndflat
      intro hmem
      exact hndflat.2.2 hmem (by simp)
    have htrest : t ∉ rest.map Prod.fst := by
      rw [List.nodup_append] at hndflat
      exact (List.nodup_cons.mp hndflat.2.1).1
    rw [List.foldl_cons]
    simp only [List.map_cons]
    have hstep : pbtAdd
        (done.map (fun tp => (tp.1, [(a1, tp.2), (a2, tp.2)])) ++
          (t, [(a1, pos)]) :: rest.map (fun tp => (tp.1, [(a1, tp.2)]))) t (a2, pos) =
        done.map (fun tp => (tp.1, [(a1, tp.2), (a2, tp.2)])) ++
          (t, [(a1, pos), (a2, pos)]) :: rest.map (fun tp => (tp.1, [(a1, tp.2)])) := by
      unfold pbtAdd
      rw [if_pos (by rw [List.any_append]; simp)]
      rw [List.map_append, List.map_cons]
      congr 1
      · rw [List.map_map]
        apply List.map_congr_left
        intro tp htp
        have hne : tp.1 ≠ t := fun h => htdone (h ▸ List.mem_map_of_mem Prod.fst htp)
        simp [Function.comp, hne]
      · congr 1
        · simp
        · rw [List.map_map]
          apply List.map_congr_left
          intro tp htp
          have hne : tp.1 ≠ t := fun h => htrest (h ▸ List.mem_map_of_mem Prod.fst htp)
          simp [Function.comp, hne]
    rw [hstep]
    have hacc : done.map (fun tp => (tp.1, [(a1, tp.2), (a2, tp.2)])) ++
        (t, [(a1, pos), (a2, pos)]) :: rest.map (fun tp => (tp.1, [(a1, tp.2)])) =
        (done ++ [(t, pos)]).map (fun tp => (tp.1, [(a1, tp.2), (a2, tp.2)])) ++
          rest.map (fun tp => (tp.1, [(a1, tp.2)])) := by
      simp
    rw [hacc]
    rw [pbt_update a1 a2 rest (done ++ [(t, pos)]) (by
      rw [List.append_assoc]
      simpa using hnd)]
    simp

end FlightAnalysis

namespace FlightAnalysis

theorem pyDictSet_nil {α β : Type} [BEq α] (k : α) (v : β) :
    pyDictSet ([] : List (α × β)) k v = [(k, v)] := rfl

theorem map_two_fst (T : Traj) (a1 a2 : String) :
    (T.map (fun tp => (tp.1, [(a1, tp.2), (a2, tp.2)]))).map Prod.fst = T.map Prod.fst := by
  rw [List.map_map]
  apply List.map_congr_left
  intro tp _
  rfl

theorem detect_two_structure (d : Coord → Coord → ℚ) (f1 f2 : Flight)
    (hne : f1.acid ≠ f2.acid)
    (hpath : get_full_flight_path f2 = get_full_flight_path f1)
    (hdep : f2.departure_time = f1.departure_time)
    (hspd : f2.aircraft_speed = f1.aircraft_speed)
    (hT : generate_4d_trajectory d f1 (get_full_flight_path f1) 60 ≠ []) :
    detect_loss_of_separation d [f1, f2] =
      ((List.insertionSort (fun a b : ℤ => a ≤ b)
          ((generate_4d_trajectory d f1 (get_full_flight_path f1) 60).map Prod.fst)).foldlM
        (fun st t =>
          check_bucket d t [(f1.acid, f1), (f2.acid, f2)]
            (((((generate_4d_trajectory d f1 (get_full_flight_path f1) 60).map
                (fun tp => (tp.1, [(f1.acid, tp.2), (f2.acid, tp.2)]))).find?
              (fun p => p.1 == t)).map Prod.snd).getD []) st)
        (⟨[], []⟩ : DetState)).map DetState.conflicts := by
  have hpathne : get_full_flight_path f1 ≠ [] := by
    intro h
    apply hT
    rw [h]
    exact gen_nil d f1 60
  have hgen2 : generate_4d_trajectory d f2 (get_full_flight_path f1) 60 =
      generate_4d_trajectory d f1 (get_full_flight_path f1) 60 :=
    gen_congr d f1 f2 (get_full_flight_path f1) 60 hdep hspd
  have hnd : ((generate_4d_trajectory d f1 (get_full_flight_path f1) 60).map Prod.fst).Nodup :=
    gen_keys_nodup d f1 (get_full_flight_path f1) 60
  have hft : [f1, f2].foldl (trajStep d) [] =
      [(f1.acid, generate_4d_trajectory d f1 (get_full_flight_path f1) 60),
       (f2.acid, generate_4d_trajectory d f1 (get_full_flight_path f1) 60)] := by
    rw [List.foldl_cons, List.foldl_cons, List.foldl_nil]
    have h1 : trajStep d [] f1 =
        [(f1.acid, generate_4d_trajectory d f1 (get_full_flight_path f1) 60)] := by
      unfold trajStep
      rw [if_neg hpathne, if_neg hT]
      rfl
    rw [h1]
    unfold trajStep
    rw [hpath, if_neg hpathne, hgen2, if_neg hT]
    unfold pyDictSet
    rw [if_neg (by simp [hne])]
    rfl
  have hpbt : [(f1.acid, generate_4d_trajectory d f1 (get_full_flight_path f1) 60),
       (f2.acid, generate_4d_trajectory d f1 (get_full_flight_path f1) 60)].foldl pbtFlight [] =
      (generate_4d_trajectory d f1 (get_full_flight_path f1) 60).map
        (fun tp => (tp.1, [(f1.acid, tp.2), (f2.acid, tp.2)])) := by
    rw [List.foldl_cons, List.foldl_cons, List.foldl_nil]
    have h1 : pbtFlight []
        (f1.acid, generate_4d_trajectory d f1 (get_full_flight_path f1) 60) =
        (generate_4d_trajectory d f1 (get_full_flight_path f1) 60).map
          (fun tp => (tp.1, [(f1.acid, tp.2)])) := by
      unfold pbtFlight
      rw [pbt_fresh f1.acid _ [] (fun t _ => rfl) hnd]
      rfl
    rw [h1]
    unfold pbtFlight
    have h2 := pbt_update f1.acid f2.acid
      (generate_4d_trajectory d f1 (get_full_flight_path f1) 60) [] (by simpa using hnd)
    simpa using h2
  unfold detect_loss_of_separation
  dsimp only
  rw [hft, hpbt, map_two_fst]
  rfl

end FlightAnalysis

theorem except_bind_ok_left {ε α β : Type} (a : α) (f : α → Except ε β) :
    (Except.ok a : Except ε α) >>= f = f a := rfl

theorem except_bind_error_left {ε α β : Type} (e : ε) (f : α → Except ε β) :
    (Except.error e : Except ε α) >>= f = Except.error e := rfl

namespace FlightAnalysis

/-- The order-independent pair key carried by a ConflictRecord. -/
def conflict_pair (r : ConflictRecord) : String × String := pair_key r.flight1 r.flight2

theorem check_pair_vert_skip (d : Coord → Coord → ℚ) (t : ℤ) (f1 f2 : Flight)
    (a1 : String) (p1 : Coord) (a2 : String) (p2 : Coord) (st : DetState) (x y : ℤ)
    (h1 : f1.altitude = some x) (h2 : f2.altitude = some y) (hsep : 2000 ≤ |x - y|) :
    check_pair d t f1 f2 a1 p1 a2 p2 st = .ok st := by
  unfold check_pair
  rw [h1, h2]
  simp [hsep]

theorem check_pair_far (d : Coord → Coord → ℚ) (t : ℤ) (f1 f2 : Flight)
    (a1 : String) (p1 : Coord) (a2 : String) (p2 : Coord) (st : DetState)
    (hfar : ¬ d p1 p2 < 5) :
    check_pair d t f1 f2 a1 p1 a2 p2 st = .ok st := by
  unfold check_pair
  dsimp only
  by_cases hv : (match f1.altitude, f2.altitude with
      | some x, some y => decide (2000 ≤ |x - y|)
      | _, _ => false) = true
  · rw [if_pos hv]
  · rw [if_neg hv, if_neg hfar]

theorem check_pair_active (d : Coord → Coord → ℚ) (t : ℤ) (f1 f2 : Flight)
    (a1 : String) (p1 : Coord) (a2 : String) (p2 : Coord) (st : DetState)
    (hkey : pair_key a1 a2 ∈ st.active) :
    check_pair d t f1 f2 a1 p1 a2 p2 st = .ok st := by
  unfold check_pair
  dsimp only
  by_cases hv : (match f1.altitude, f2.altitude with
      | some x, some y => decide (2000 ≤ |x - y|)
      | _, _ => false) = true
  · rw [if_pos hv]
  · rw [if_neg hv]
    by_cases hd5 : d p1 p2 < 5
    · rw [if_pos hd5, if_pos hkey]
    · rw [if_neg hd5]

theorem check_pair_flag (d : Coord → Coord → ℚ) (t : ℤ) (f1 f2 : Flight)
    (a1 : String) (p1 : Coord) (a2 : String) (p2 : Coord) (st : DetState) (x y : ℤ)
    (h1 : f1.altitude = some x) (h2 : f2.altitude = some y) (hclose : |x - y| < 2000)
    (hdist : d p1 p2 < 5) (hkey : pair_key a1 a2 ∉ st.active) :
    check_pair d t f1 f2 a1 p1 a2 p2 st =
      .ok ⟨st.active ++ [pair_key a1 a2],
           st.conflicts ++ [⟨a1, a2, pyRound2 (d p1 p2), |x - y|, t⟩]⟩ := by
  unfold check_pair
  rw [h1, h2]
  dsimp only
  rw [if_neg (by simp [not_le.mpr hclose])]
  rw [if_pos hdist, if_neg hkey]
  unfold vertical_ft_of
  rw [h1, h2]
  rfl

end FlightAnalysis

namespace FlightAnalysis

theorem lookup_two_left (f1 f2 : Flight) (hne : f1.acid ≠ f2.acid) :
    lookupFlight [(f1.acid, f1), (f2.acid, f2)] f1.acid = some f1 := by
  unfold lookupFlight
  simp [List.foldl_cons, List.foldl_nil, Ne.symm hne]

theorem lookup_two_right (f1 f2 : Flight) (hne : f1.acid ≠ f2.acid) :
    lookupFlight [(f1.acid, f1), (f2.acid, f2)] f2.acid = some f2 := by
  unfold lookupFlight
  simp [List.foldl_cons, List.foldl_nil, hne]

theorem check_bucket_two (d : Coord → Coord → ℚ) (t : ℤ) (f1 f2 : Flight)
    (hne : f1.acid ≠ f2.acid) (pos1 pos2 : Coord) (st : DetState) :
    check_bucket d t [(f1.acid, f1), (f2.acid, f2)]
        [(f1.acid, pos1), (f2.acid, pos2)] st =
      check_pair d t f1 f2 f1.acid pos1 f2.acid pos2 st := by
  simp only [check_bucket, check_inner]
  rw [lookup_two_left f1 f2 hne, lookup_two_right f1 f2 hne]
  dsimp only
  cases hcp : check_pair d t f1 f2 f1.acid pos1 f2.acid pos2 st
  · rfl
  · rfl

theorem find?_map_keyed {β : Type} (g : ℤ × Coord → ℤ × β) (hg : ∀ x, (g x).1 = x.1)
    (t : ℤ) : ∀ l : List (ℤ × Coord),
      ((l.map g).find? (fun p => p.1 == t)) = (l.find? (fun p => p.1 == t)).map g
  | [] => rfl
  | x :: l => by
    rw [List.map_cons]
    cases hx : (x.1 == t)
    · rw [List.find?_cons_of_neg _ (by simp only [hg]; simp [hx]),
        List.find?_cons_of_neg _ (by simp [hx])]
      exact find?_map_keyed g hg t l
    · rw [List.find?_cons_of_pos _ (by simp only [hg]; simp [hx]),
        List.find?_cons_of_pos _ (by simp [hx])]
      rfl

theorem find?_key_of_mem (t : ℤ) :
    ∀ T : Traj, t ∈ T.map Prod.fst →
      ∃ pos, T.find? (fun p => p.1 == t) = some (t, pos)
  | [], h => absurd h (by simp)
  | (t', pos') :: T, h => by
    cases hx : (t' == t)
    · have ht : t ∈ T.map Prod.fst := by
        rw [List.map_cons, List.mem_cons] at h
        rcases h with h1 | h1
        · subst h1
          simp at hx
        · exact h1
      rw [List.find?_cons_of_neg _ (by simp [hx])]
      exact find?_key_of_mem t T ht
    · have ht' : t' = t := beq_iff_eq.mp hx
      subst ht'
      exact ⟨pos', List.find?_cons_of_pos _ (by simp)⟩

end FlightAnalysis

theorem foldlM_ok_of_id {σ α : Type} (step : σ → α → Except String σ) (st : σ) :
    ∀ l : List α, (∀ a ∈ l, step st a = .ok st) → l.foldlM step st = .ok st
  | [], _ => rfl
  | a :: l, h => by
    rw [List.foldlM_cons, h a (by simp)]
    simp only [except_bind_ok_left]
    exact foldlM_ok_of_id step st l (fun b hb => h b (by simp [hb]))

theorem foldlM_preserve {σ α : Type} (P : σ → Prop) (step : σ → α → Except String σ)
    (hstep : ∀ st a st', P st → step st a = .ok st' → P st') :
    ∀ (l : List α) (st st' : σ), P st → l.foldlM step st = .ok st' → P st'
  | [], st, st', hP, h => by
    rw [List.foldlM_nil] at h
    cases h
    exact hP
  | a :: l, st, st', hP, h => by
    rw [List.foldlM_cons] at h
    cases ha : step st a with
    | error e => rw [ha] at h; exact absurd h (by simp [except_bind_error_left])
    | ok st1 =>
      rw [ha] at h
      rw [except_bind_ok_left] at h
      exact foldlM_preserve P step hstep l st1 st' (hstep st a st1 hP ha) h

namespace FlightAnalysis

/-- The deduplication invariant of the conflict scan: every emitted record
has its pair key in the active set, and no two records share a pair key. -/
def DetInv (st : DetState) : Prop :=
  (∀ r ∈ st.conflicts, conflict_pair r ∈ st.active) ∧
    (st.conflicts.map conflict_pair).Nodup

theorem check_pair_inv (d : Coord → Coord → ℚ) (t : ℤ) (f1 f2 : Flight)
    (a1 : String) (p1 : Coord) (a2 : String) (p2 : Coord) (st st' : DetState)
    (hinv : DetInv st) (h : check_pair d t f1 f2 a1 p1 a2 p2 st = .ok st') : DetInv st' := by
  unfold check_pair at h
  dsimp only at h
  by_cases hv : (match f1.altitude, f2.altitude with
      | some x, some y => decide (2000 ≤ |x - y|)
      | _, _ => false) = true
  · rw [if_pos hv] at h
    cases h
    exact hinv
  · rw [if_neg hv] at h
    by_cases hd5 : d p1 p2 < 5
    · rw [if_pos hd5] at h
      by_cases hk : pair_key a1 a2 ∈ st.active
      · rw [if_pos hk] at h
        cases h
        exact hinv
      · rw [if_neg hk] at h
        cases hv2 : vertical_ft_of f1 f2 with
        | error e =>
          rw [hv2] at h
          exact absurd h (by simp [except_bind_error_left])
        | ok vert =>
          rw [hv2] at h
          rw [except_bind_ok_left] at h
          cases h
          constructor
          · intro r hr
            rw [List.mem_append] at hr
            rcases hr with hr | hr
            · exact List.mem_append_left _ (hinv.1 r hr)
            · rw [List.mem_singleton] at hr
              subst hr
              exact List.mem_append_right _ (by simp [conflict_pair])
          · rw [List.map_append, List.nodup_append]
            refine ⟨hinv.2, by simp, ?_⟩
            intro k hk1 hk2
            simp only [List.map_cons, List.map_nil, List.mem_singleton] at hk2
            subst hk2
            rcases List.mem_map.mp hk1 with ⟨r, hr, he⟩
            have hrk : conflict_pair r ∈ st.active := hinv.1 r hr
            rw [he] at hrk
            exact hk hrk
    · rw [if_neg hd5] at h
      cases h
      exact hinv

theorem check_inner_inv (d : Coord → Coord → ℚ) (t : ℤ) (objs : List (String × Flight))
    (a1 : String) (p1 : Coord) (f1 : Flight) :
    ∀ (rest : List (String × Coord)) (st st' : DetState), DetInv st →
      check_inner d t objs a1 p1 f1 rest st = .ok st' → DetInv st'
  | [], st, st', hinv, h => by
    unfold check_inner at h
    cases h
    exact hinv
  | (a2, p2) :: rest, st, st', hinv, h => by
    unfold check_inner at h
    cases hl : lookupFlight objs a2 with
    | none => rw [hl] at h; cases h
    | some f2 =>
      rw [hl] at h
      dsimp only at h
      cases hcp : check_pair d t f1 f2 a1 p1 a2 p2 st with
      | error e => rw [hcp] at h; exact absurd h (by simp [except_bind_error_left])
      | ok st1 =>
        rw [hcp] at h
        rw [except_bind_ok_left] at h
        exact check_inner_inv d t objs a1 p1 f1 rest st1 st'
          (check_pair_inv d t f1 f2 a1 p1 a2 p2 st st1 hinv hcp) h

theorem check_bucket_inv (d : Coord → Coord → ℚ) (t : ℤ) (objs : List (String × Flight)) :
    ∀ (l : List (String × Coord)) (st st' : DetState), DetInv st →
      check_bucket d t objs l st = .ok st' → DetInv st'
  | [], st, st', hinv, h => by
    unfold check_bucket at h
    cases h
    exact hinv
  | (a1, p1) :: rest, st, st', hinv, h => by
    unfold check_bucket at h
    cases hl : lookupFlight objs a1 with
    | none => rw [hl] at h; cases h
    | some f1 =>
      rw [hl] at h
      dsimp only at h
      cases hci : check_inner d t objs a1 p1 f1 rest st with
      | error e => rw [hci] at h; exact absurd h (by simp [except_bind_error_left])
      | ok st1 =>
        rw [hci] at h
        rw [except_bind_ok_left] at h
        exact check_bucket_inv d t objs rest st1 st'
          (check_inner_inv d t objs a1 p1 f1 rest st st1 hinv hci) h

theorem detect_nodup (d : Coord → Coord → ℚ) (flights : List Flight)
    (l : List ConflictRecord) (h : detect_loss_of_separation d flights = .ok l) :
    (l.map conflict_pair).Nodup := by
  unfold detect_loss_of_separation at h
  dsimp only at h
  cases hfm : (List.insertionSort (fun a b : ℤ => a ≤ b)
      ((List.foldl pbtFlight [] (List.foldl (trajStep d) [] flights)).map Prod.fst)).foldlM
      (fun st t =>
        check_bucket d t (flights.map fun f => (f.acid, f))
          ((((List.foldl pbtFlight [] (List.foldl (trajStep d) [] flights)).find?
            (fun p => p.1 == t)).map Prod.snd).getD []) st)
      (⟨[], []⟩ : DetState) with
  | error e =>
    rw [hfm] at h
    cases h
  | ok stf =>
    rw [hfm] at h
    cases h
    have hinv : DetInv stf := by
      apply foldlM_preserve DetInv _ _ _ (⟨[], []⟩ : DetState) stf _ hfm
      · intro st t st' hst hstep
        exact check_bucket_inv d t _ _ st st' hst hstep
      · exact ⟨by simp, List.nodup_nil⟩
    exact hinv.2

end FlightAnalysis

namespace FlightAnalysis

theorem detect_two_no_traj (d : Coord → Coord → ℚ) (f1 f2 : Flight)
    (hpath : get_full_flight_path f2 = get_full_flight_path f1)
    (hdep : f2.departure_time = f1.departure_time)
    (hspd : f2.aircraft_speed = f1.aircraft_speed)
    (h : generate_4d_trajectory d f1 (get_full_flight_path f1) 60 = []) :
    detect_loss_of_separation d [f1, f2] = .ok [] := by
  have hgen2 : generate_4d_trajectory d f2 (get_full_flight_path f1) 60 =
      generate_4d_trajectory d f1 (get_full_flight_path f1) 60 :=
    gen_congr d f1 f2 (get_full_flight_path f1) 60 hdep hspd
  unfold detect_loss_of_separation
  dsimp only
  have hft : [f1, f2].foldl (trajStep d) [] = [] := by
    rw [List.foldl_cons, List.foldl_cons, List.foldl_nil]
    have h1 : trajStep d [] f1 = [] := by
      unfold trajStep
      by_cases hp : get_full_flight_path f1 = []
      · rw [if_pos hp]
      · rw [if_neg hp, if_pos h]
    rw [h1]
    unfold trajStep
    by_cases hp : get_full_flight_path f2 = []
    · rw [if_pos hp]
    · rw [if_neg hp, hpath, hgen2, if_pos h]
  rw [hft]
  rfl

end FlightAnalysis

/-- C4: within a shared time bucket the pair logic of
detect_loss_of_separation is exactly the claimed one — when both altitudes
are known and at least 2000 ft apart the pair is skipped regardless of
horizontal proximity; otherwise (altitudes known and closer than 2000 ft)
the pair is flagged exactly when the horizontal distance is strictly below
5 nautical miles and the pair is not yet active — and, in particular, two
flights flying the same path at the same times with altitudes at least
2000 ft apart produce no ConflictRecord at all. -/
theorem spec_C4_vertical_separation (d : Coord → Coord → ℚ) (f1 f2 : Flight) (x y : ℤ)
    (h1 : f1.altitude = some x) (h2 : f2.altitude = some y) (hsep : 2000 ≤ |x - y|)
    (hne : f1.acid ≠ f2.acid)
    (hpath : FlightAnalysis.get_full_flight_path f2 = FlightAnalysis.get_full_flight_path f1)
    (hdep : f2.departure_time = f1.departure_time)
    (hspd : f2.aircraft_speed = f1.aircraft_speed) :
    (∀ (g1 g2 : Flight) (t : ℤ) (a1 : String) (p1 : Coord) (a2 : String) (p2 : Coord)
        (st : FlightAnalysis.DetState) (u v : ℤ),
        g1.altitude = some u → g2.altitude = some v →
      (2000 ≤ |u - v| → FlightAnalysis.check_pair d t g1 g2 a1 p1 a2 p2 st = .ok st) ∧
      (|u - v| < 2000 → ¬ d p1 p2 < 5 →
        FlightAnalysis.check_pair d t g1 g2 a1 p1 a2 p2 st = .ok st) ∧
      (|u - v| < 2000 → d p1 p2 < 5 → FlightAnalysis.pair_key a1 a2 ∉ st.active →
        FlightAnalysis.check_pair d t g1 g2 a1 p1 a2 p2 st =
          .ok ⟨st.active ++ [FlightAnalysis.pair_key a1 a2],
               st.conflicts ++ [⟨a1, a2, pyRound2 (d p1 p2), |u - v|, t⟩]⟩)) ∧
    FlightAnalysis.detect_loss_of_separation d [f1, f2] = .ok [] := by
  constructor
  · intro g1 g2 t a1 p1 a2 p2 st u v hu hv
    exact ⟨fun hs => FlightAnalysis.check_pair_vert_skip d t g1 g2 a1 p1 a2 p2 st u v hu hv hs,
           fun _ hf => FlightAnalysis.check_pair_far d t g1 g2 a1 p1 a2 p2 st hf,
           fun hcl hd5 hk =>
             FlightAnalysis.check_pair_flag d t g1 g2 a1 p1 a2 p2 st u v hu hv hcl hd5 hk⟩
  · by_cases hT : FlightAnalysis.generate_4d_trajectory d f1
        (FlightAnalysis.get_full_flight_path f1) 60 = []
    · exact FlightAnalysis.detect_two_no_traj d f1 f2 hpath hdep hspd hT
    · rw [FlightAnalysis.detect_two_structure d f1 f2 hne hpath hdep hspd hT]
      rw [foldlM_ok_of_id _ _ _ ?_]
      · rfl
      · intro t ht
        have htm : t ∈ (FlightAnalysis.generate_4d_trajectory d f1
            (FlightAnalysis.get_full_flight_path f1) 60).map Prod.fst :=
          (List.perm_insertionSort _ _).subset ht
        obtain ⟨pos, hfind⟩ := FlightAnalysis.find?_key_of_mem t _ htm
        rw [FlightAnalysis.find?_map_keyed
          (fun tp => (tp.1, [(f1.acid, tp.2), (f2.acid, tp.2)])) (fun z => rfl) t _, hfind]
        simp only [Option.map_some', Option.getD_some]
        rw [FlightAnalysis.check_bucket_two d t f1 f2 hne pos pos ⟨[], []⟩]
        exact FlightAnalysis.check_pair_vert_skip d t f1 f2 f1.acid pos f2.acid pos
          ⟨[], []⟩ x y h1 h2 hsep

theorem pyRound2_zero : pyRound2 0 = 0 := by decide

/-- C1: detect_loss_of_separation emits at most one ConflictRecord per
unordered flight pair per run — the emitted records of every successful
run carry pairwise distinct unordered pair keys — and, in particular, two
flights with identical trajectories (same path, same speed, same
departure time) and altitude difference 0 yield exactly one
ConflictRecord for their pair, not one per overlapping time bucket. -/
theorem spec_C1_pair_dedup (d : Coord → Coord → ℚ) (f1 f2 : Flight) (x : ℤ)
    (hne : f1.acid ≠ f2.acid)
    (hpath : FlightAnalysis.get_full_flight_path f2 = FlightAnalysis.get_full_flight_path f1)
    (hdep : f2.departure_time = f1.departure_time)
    (hspd : f2.aircraft_speed = f1.aircraft_speed)
    (h1 : f1.altitude = some x) (h2 : f2.altitude = some x)
    (hd0 : ∀ p : Coord, d p p = 0)
    (hT : FlightAnalysis.generate_4d_trajectory d f1
      (FlightAnalysis.get_full_flight_path f1) 60 ≠ []) :
    (∀ (flights : List Flight) (l : List FlightAnalysis.ConflictRecord),
      FlightAnalysis.detect_loss_of_separation d flights = .ok l →
        (l.map FlightAnalysis.conflict_pair).Nodup) ∧
    ∃ t0 : ℤ, FlightAnalysis.detect_loss_of_separation d [f1, f2] =
      .ok [⟨f1.acid, f2.acid, 0, 0, t0⟩] := by
  constructor
  · intro flights l h
    exact FlightAnalysis.detect_nodup d flights l h
  · rw [FlightAnalysis.detect_two_structure d f1 f2 hne hpath hdep hspd hT]
    have hbucket : ∀ t ∈ List.insertionSort (fun a b : ℤ => a ≤ b)
        ((FlightAnalysis.generate_4d_trajectory d f1
          (FlightAnalysis.get_full_flight_path f1) 60).map Prod.fst),
        ∃ pos, ((((FlightAnalysis.generate_4d_trajectory d f1
            (FlightAnalysis.get_full_flight_path f1) 60).map
              (fun tp => (tp.1, [(f1.acid, tp.2), (f2.acid, tp.2)]))).find?
            (fun p => p.1 == t)).map Prod.snd).getD [] =
          [(f1.acid, pos), (f2.acid, pos)] := by
      intro t ht
      have htm : t ∈ (FlightAnalysis.generate_4d_trajectory d f1
          (FlightAnalysis.get_full_flight_path f1) 60).map Prod.fst :=
        (List.perm_insertionSort _ _).subset ht
      obtain ⟨pos, hfind⟩ := FlightAnalysis.find?_key_of_mem t _ htm
      refine ⟨pos, ?_⟩
      rw [FlightAnalysis.find?_map_keyed
        (fun tp => (tp.1, [(f1.acid, tp.2), (f2.acid, tp.2)])) (fun z => rfl) t _, hfind]
      rfl
    cases hts : List.insertionSort (fun a b : ℤ => a ≤ b)
        ((FlightAnalysis.generate_4d_trajectory d f1
          (FlightAnalysis.get_full_flight_path f1) 60).map Prod.fst) with
    | nil =>
      exfalso
      apply hT
      have hlen := congrArg List.length hts
      rw [(List.perm_insertionSort _ _).length_eq, List.length_map] at hlen
      exact List.length_eq_zero.mp hlen
    | cons t0 rest =>
      refine ⟨t0, ?_⟩
      obtain ⟨pos0, hb0⟩ := hbucket t0 (hts ▸ List.mem_cons_self t0 rest)
      rw [List.foldlM_cons]
      rw [hb0]
      rw [FlightAnalysis.check_bucket_two d t0 f1 f2 hne pos0 pos0 ⟨[], []⟩]
      rw [FlightAnalysis.check_pair_flag d t0 f1 f2 f1.acid pos0 f2.acid pos0 ⟨[], []⟩ x x
        h1 h2 (by simp) (by rw [hd0 pos0]; norm_num) (by simp)]
      rw [except_bind_ok_left]
      rw [foldlM_ok_of_id _ _ rest ?_]
      · rw [hd0 pos0, pyRound2_zero, sub_self, abs_zero]
        rfl
      · intro t ht
        obtain ⟨pos, hb⟩ := hbucket t (hts ▸ List.mem_cons_of_mem t0 ht)
        rw [hb]
        rw [FlightAnalysis.check_bucket_two d t f1 f2 hne pos pos _]
        apply FlightAnalysis.check_pair_active
        simp

theorem spec_C4_witness :
    FlightAnalysis.detect_loss_of_separation dOne [flightA, flightBHigh] = .ok [] :=
  (spec_C4_vertical_separation dOne flightA flightBHigh 30000 34000 rfl rfl (by decide)
    (by decide) (by decide) (by decide) (by decide)).2

theorem spec_C1_witness :
    ∃ t0 : ℤ, FlightAnalysis.detect_loss_of_separation dOne [flightA, flightB] =
      .ok [⟨flightA.acid, flightB.acid, 0, 0, t0⟩] :=
  (spec_C1_pair_dedup dOne flightA flightB 30000 (by decide) (by decide) rfl rfl rfl rfl
    (fun p => by simp [dOne]) (by decide)).2

/-!
Structural theory of detect_congestion: the aggregation map as an
association list with distinct keys, its lookup as a function of the
input flights, and the resulting hotspot list.
-/

namespace AirspaceCongestion

/-- The aggregation map of detect_congestion. -/
abbrev SWMap : Type := List (BucketKey × Finset String)

def lookupSW (m : SWMap) (k : BucketKey) : Option (Finset String) :=
  (m.find? (fun p => p.1 == k)).map Prod.snd

/-- The samples of one flight in a run where its reconstruction succeeds;
empty when it raises. -/
def samplesOf (d : Coord → Coord → ℚ) (f : Flight) : List PositionSample :=
  match estimate_trajectory d f with
  | .ok l => l
  | .error _ => []

/-- The bucket key of one sample, as computed inside detect_congestion. -/
def sampleKey (s : PositionSample) : BucketKey :=
  ((get_sector s.latitude s.longitude).1, (get_sector s.latitude s.longitude).2,
    get_time_window s.timestamp)

def contributes (d : Coord → Coord → ℚ) (f : Flight) (k : BucketKey) : Bool :=
  (samplesOf d f).any (fun s => sampleKey s == k)

/-- The distinct flight identifiers observed in bucket k over a flight
list: the acids of the flights with at least one sample in the bucket. -/
def observedAcids (d : Coord → Coord → ℚ) (flights : List Flight) (k : BucketKey) :
    Finset String :=
  ((flights.filter (fun f => contributes d f k)).map Flight.acid).toFinset

theorem lookupSW_map_upd (k : BucketKey) (a : String) :
    ∀ m : SWMap,
      lookupSW (m.map (fun p => if p.1 == k then (p.1, insert a p.2) else p)) k =
        (lookupSW m k).map (fun S => insert a S)
  | [] => rfl
  | p :: rest => by
    unfold lookupSW
    rw [List.map_cons]
    have hkey : (if p.1 == k then (p.1, insert a p.2) else p).1 = p.1 := by
      by_cases h : (p.1 == k) = true
      · simp [h]
      · simp [h]
    by_cases hp : (p.1 == k) = true
    · rw [List.find?_cons_of_pos _ (by simp [hkey, hp]), List.find?_cons_of_pos _ (by simp [hp])]
      rw [if_pos hp]
      rfl
    · rw [List.find?_cons_of_neg _ (by simp [hkey, hp]), List.find?_cons_of_neg _ (by simp [hp])]
      exact lookupSW_map_upd k a rest

theorem lookupSW_map_upd_other (k k' : BucketKey) (a : String) (hkk : k' ≠ k) :
    ∀ m : SWMap,
      lookupSW (m.map (fun p => if p.1 == k then (p.1, insert a p.2) else p)) k' =
        lookupSW m k'
  | [] => rfl
  | p :: rest => by
    unfold lookupSW
    rw [List.map_cons]
    have hkey : (if p.1 == k then (p.1, insert a p.2) else p).1 = p.1 := by
      by_cases h : (p.1 == k) = true
      · simp [h]
      · simp [h]
    by_cases hp : (p.1 == k') = true
    · rw [List.find?_cons_of_pos _ (by rw [hkey]; exact hp), List.find?_cons_of_pos _ (by exact hp)]
      have hpk : (p.1 == k) = false := by
        rw [beq_iff_eq.mp hp]
        exact beq_eq_false_iff_ne.mpr hkk
      rw [if_neg (by simp [hpk])]
    · rw [List.find?_cons_of_neg _ (by rw [hkey]; exact hp), List.find?_cons_of_neg _ (by exact hp)]
      exact lookupSW_map_upd_other k k' a hkk rest

theorem lookupSW_none_of_any_false (m : SWMap) (k : BucketKey)
    (h : m.any (fun p => p.1 == k) = false) : lookupSW m k = none := by
  unfold lookupSW
  rw [List.find?_eq_none.mpr (List.any_eq_false.mp h)]
  rfl

theorem lookupSW_isSome_of_any_true (m : SWMap) (k : BucketKey)
    (h : m.any (fun p => p.1 == k) = true) : ∃ S, lookupSW m k = some S := by
  rw [List.any_eq_true] at h
  obtain ⟨p, hp, hpk⟩ := h
  have hsome : (m.find? (fun p => p.1 == k)).isSome := List.find?_isSome.mpr ⟨p, hp, hpk⟩
  cases hf : m.find? (fun p => p.1 == k) with
  | none => rw [hf] at hsome; simp at hsome
  | some q => exact ⟨q.2, by unfold lookupSW; rw [hf]; rfl⟩

theorem lookupSW_swAdd_same (m : SWMap) (k : BucketKey) (a : String) :
    lookupSW (swAdd m k a) k = some (insert a ((lookupSW m k).getD ∅)) := by
  unfold swAdd
  by_cases hany : m.any (fun p => p.1 == k) = true
  · rw [if_pos hany, lookupSW_map_upd]
    obtain ⟨S, hS⟩ := lookupSW_isSome_of_any_true m k hany
    rw [hS]
    rfl
  · rw [if_neg hany]
    have hb : m.any (fun p => p.1 == k) = false := by
      cases hx : m.any (fun p => p.1 == k)
      · rfl
      · exact absurd hx hany
    have hf : m.find? (fun p => p.1 == k) = none :=
      List.find?_eq_none.mpr (List.any_eq_false.mp hb)
    unfold lookupSW
    rw [List.find?_append, hf]
    rw [List.find?_cons_of_pos _ (by simp)]
    rfl

theorem lookupSW_swAdd_other (m : SWMap) (k k' : BucketKey) (a : String) (hkk : k' ≠ k) :
    lookupSW (swAdd m k a) k' = lookupSW m k' := by
  unfold swAdd
  by_cases hany : m.any (fun p => p.1 == k) = true
  · rw [if_pos hany]
    exact lookupSW_map_upd_other k k' a hkk m
  · rw [if_neg hany]
    unfold lookupSW
    rw [List.find?_append]
    cases hf : m.find? (fun p => p.1 == k') with
    | none =>
      simp only [Option.none_or]
      rw [List.find?_cons_of_neg _ (by simp [Ne.symm hkk])]
      rfl
    | some q => rfl

theorem swAdd_keys (m : SWMap) (k : BucketKey) (a : String) :
    (swAdd m k a).map Prod.fst =
      if m.any (fun p => p.1 == k) = true then m.map Prod.fst
      else m.map Prod.fst ++ [k] := by
  unfold swAdd
  by_cases hany : m.any (fun p => p.1 == k) = true
  · rw [if_pos hany, if_pos hany, List.map_map]
    apply List.map_congr_left
    intro p _
    by_cases hpk : (p.1 == k) = true
    · simp [Function.comp, hpk]
    · simp [Function.comp, hpk]
  · rw [if_neg hany, if_neg hany, List.map_append]
    rfl

theorem swAdd_keys_mem (m : SWMap) (k : BucketKey) (a : String) (k' : BucketKey) :
    k' ∈ (swAdd m k a).map Prod.fst ↔ k' ∈ m.map Prod.fst ∨ k' = k := by
  rw [swAdd_keys]
  by_cases hany : m.any (fun p => p.1 == k) = true
  · rw [if_pos hany]
    constructor
    · exact Or.inl
    · intro h
      rcases h with h | h
      · exact h
      · subst h
        rw [List.any_eq_true] at hany
        obtain ⟨p, hp, hpk⟩ := hany
        rw [← beq_iff_eq.mp hpk]
        exact List.mem_map_of_mem Prod.fst hp
  · rw [if_neg hany]
    simp

theorem swAdd_keys_nodup (m : SWMap) (k : BucketKey) (a : String)
    (h : (m.map Prod.fst).Nodup) : ((swAdd m k a).map Prod.fst).Nodup := by
  rw [swAdd_keys]
  by_cases hany : m.any (fun p => p.1 == k) = true
  · rw [if_pos hany]
    exact h
  · rw [if_neg hany]
    have hb : m.any (fun p => p.1 == k) = false := by
      cases hx : m.any (fun p => p.1 == k)
      · rfl
      · exact absurd hx hany
    rw [List.nodup_append]
    refine ⟨h, List.nodup_singleton _, ?_⟩
    intro x hx hk
    rw [List.mem_singleton] at hk
    subst hk
    rcases List.mem_map.mp hx with ⟨p, hp, rfl⟩
    have := List.any_eq_false.mp hb p hp
    simp at this

/-- The per-sample accumulation step of detect_congestion. -/
def innerStep (acid : String) (m : SWMap) (s : PositionSample) : SWMap :=
  swAdd m (sampleKey s) acid

/-- The per-flight accumulation step: fold all samples of one flight into
the aggregation map. -/
def outerStep (d : Coord → Coord → ℚ) (m : SWMap) (f : Flight) : SWMap :=
  (samplesOf d f).foldl (innerStep f.acid) m

/-- The aggregation map detect_congestion builds when no flight raises. -/
def bucketFold (d : Coord → Coord → ℚ) (flights : List Flight) : SWMap :=
  flights.foldl (outerStep d) []

/-- The hotspot record built for bucket k holding flight set S. -/
def mkHot (k : BucketKey) (S : Finset String) : Hotspot :=
  { sector_lat := k.1, sector_lon := k.2.1, window_start := k.2.2,
    flight_count := S.card, flights := S }

/-- The bucket filter of detect_congestion: keep buckets with strictly
more than 5 distinct flights. -/
def hotOf (p : BucketKey × Finset String) : Option Hotspot :=
  if 5 < p.2.card then some (mkHot p.1 p.2) else none

/-- Whether reconstructing one flight succeeds. -/
def estOkB (d : Coord → Coord → ℚ) (f : Flight) : Bool :=
  match estimate_trajectory d f with
  | .ok _ => true
  | .error _ => false

theorem estSegments_error (d : Coord → Coord → ℚ) (speed : ℚ) (acid : String) :
    ∀ (segs : List (Coord × Coord)) (ct : Option ℤ) (samples : List PositionSample)
      (e : String), estSegments d speed acid segs ct samples = .error e →
      e = "TypeError: unsupported operand types for +: NoneType and int"
  | [], _, samples, e, h => by exact Except.noConfusion h
  | (p1, p2) :: rest, ct, samples, e, h => by
    unfold estSegments at h
    dsimp only at h
    split at h
    · exact estSegments_error d speed acid rest ct samples e h
    · split at h
      · injection h with h
        exact h.symm
      · exact estSegments_error d speed acid rest _ _ e h

theorem estimate_trajectory_error (d : Coord → Coord → ℚ) (f : Flight) (e : String)
    (h : estimate_trajectory d f = .error e) :
    e = "TypeError: unsupported operand types for +: NoneType and int" := by
  unfold estimate_trajectory at h
  dsimp only at h
  split at h
  · exact Except.noConfusion h
  · split at h
    · exact Except.noConfusion h
    · exact estSegments_error d f.aircraft_speed f.acid _ _ _ e h

theorem flight_fold_lookup (a : String) (k : BucketKey) :
    ∀ (samples : List PositionSample) (m : SWMap),
      lookupSW (samples.foldl (innerStep a) m) k =
        if samples.any (fun s => sampleKey s == k)
        then some (insert a ((lookupSW m k).getD ∅))
        else lookupSW m k
  | [], m => by simp
  | s :: rest, m => by
    rw [List.foldl_cons, List.any_cons, flight_fold_lookup a k rest]
    by_cases hs : (sampleKey s == k) = true
    · have hm : lookupSW (innerStep a m s) k =
          some (insert a ((lookupSW m k).getD ∅)) := by
        unfold innerStep
        rw [beq_iff_eq.mp hs]
        exact lookupSW_swAdd_same m k a
      rw [hs, Bool.true_or, if_pos rfl, hm]
      by_cases hrest : rest.any (fun s => sampleKey s == k) = true
      · rw [if_pos hrest]
        simp [Finset.insert_idem]
      · rw [if_neg hrest]
    · have hs' : (sampleKey s == k) = false := by
        cases hx : (sampleKey s == k)
        · rfl
        · exact absurd hx hs
      have hm : lookupSW (innerStep a m s) k = lookupSW m k := by
        unfold innerStep
        exact lookupSW_swAdd_other m (sampleKey s) k a
          (Ne.symm (fun hx => hs (beq_iff_eq.mpr hx)))
      rw [hm, hs', Bool.false_or]

theorem inner_keys_nodup (a : String) :
    ∀ (samples : List PositionSample) (m : SWMap), (m.map Prod.fst).Nodup →
      ((samples.foldl (innerStep a) m).map Prod.fst).Nodup
  | [], _, h => h
  | s :: rest, m, h =>
    inner_keys_nodup a rest _ (swAdd_keys_nodup m (sampleKey s) a h)

theorem outer_keys_nodup (d : Coord → Coord → ℚ) :
    ∀ (flights : List Flight) (m : SWMap), (m.map Prod.fst).Nodup →
      ((flights.foldl (outerStep d) m).map Prod.fst).Nodup
  | [], _, h => h
  | f :: rest, m, h =>
    outer_keys_nodup d rest _ (inner_keys_nodup f.acid (samplesOf d f) m h)

theorem bucketFold_keys_nodup (d : Coord → Coord → ℚ) (flights : List Flight) :
    ((bucketFold d flights).map Prod.fst).Nodup :=
  outer_keys_nodup d flights [] List.nodup_nil

theorem observedAcids_cons_pos (d : Coord → Coord → ℚ) (f : Flight)
    (rest : List Flight) (k : BucketKey) (hc : contributes d f k = true) :
    observedAcids d (f :: rest) k = insert f.acid (observedAcids d rest k) := by
  unfold observedAcids
  simp only [List.filter_cons, hc, if_true, List.map_cons, List.toFinset_cons]

theorem observedAcids_cons_neg (d : Coord → Coord → ℚ) (f : Flight)
    (rest : List Flight) (k : BucketKey) (hc : ¬ contributes d f k = true) :
    observedAcids d (f :: rest) k = observedAcids d rest k := by
  unfold observedAcids
  simp [List.filter_cons, hc]

theorem observedAcids_empty_of_any_false (d : Coord → Coord → ℚ)
    (flights : List Flight) (k : BucketKey)
    (h : flights.any (fun f => contributes d f k) = false) :
    observedAcids d flights k = ∅ := by
  unfold observedAcids
  have : flights.filter (fun f => contributes d f k) = [] := by
    rw [List.filter_eq_nil_iff]
    intro f hf
    simpa using List.any_eq_false.mp h f hf
  rw [this]
  rfl

theorem lookup_outer (d : Coord → Coord → ℚ) (k : BucketKey) :
    ∀ (flights : List Flight) (m : SWMap),
      lookupSW (flights.foldl (outerStep d) m) k =
        if flights.any (fun f => contributes d f k)
        then some (observedAcids d flights k ∪ (lookupSW m k).getD ∅)
        else lookupSW m k
  | [], m => by simp
  | f :: rest, m => by
    rw [List.foldl_cons, List.any_cons, lookup_outer d k rest]
    have hstep : lookupSW (outerStep d m f) k =
        if contributes d f k then some (insert f.acid ((lookupSW m k).getD ∅))
        else lookupSW m k := flight_fold_lookup f.acid k (samplesOf d f) m
    by_cases hc : contributes d f k = true
    · rw [if_pos hc] at hstep
      rw [hc, Bool.true_or, if_pos rfl, observedAcids_cons_pos d f rest k hc]
      by_cases hrest : rest.any (fun f => contributes d f k) = true
      · rw [if_pos hrest, hstep]
        rw [Option.getD_some, Finset.union_insert, Finset.insert_union]
      · rw [if_neg hrest, hstep]
        rw [observedAcids_empty_of_any_false d rest k (by
          cases hx : rest.any (fun f => contributes d f k)
          · rfl
          · exact absurd hx hrest)]
        rw [Finset.insert_union, Finset.empty_union]
    · have hc' : contributes d f k = false := by
        cases hx : contributes d f k
        · rfl
        · exact absurd hx hc
      rw [if_neg hc] at hstep
      rw [hc', Bool.false_or, hstep, observedAcids_cons_neg d f rest k hc]

theorem lookup_bucketFold (d : Coord → Coord → ℚ) (flights : List Flight)
    (k : BucketKey) :
    lookupSW (bucketFold d flights) k =
      if flights.any (fun f => contributes d f k)
      then some (observedAcids d flights k) else none := by
  unfold bucketFold
  rw [lookup_outer]
  by_cases h : flights.any (fun f => contributes d f k) = true
  · rw [if_pos h, if_pos h]
    simp [lookupSW, Finset.union_empty]
  · rw [if_neg h, if_neg h]
    rfl



theorem find?_self_of_nodup :
    ∀ (m : SWMap), ((m.map Prod.fst).Nodup) → ∀ p : BucketKey × Finset String,
      p ∈ m → m.find? (fun q => q.1 == p.1) = some p
  | [], _, p, hp => absurd hp (List.not_mem_nil p)
  | q :: rest, hnd, p, hp => by
    rw [List.map_cons, List.nodup_cons] at hnd
    rcases List.mem_cons.mp hp with rfl | hp2
    · exact List.find?_cons_of_pos _ (by simp)
    · have hne : ¬(q.1 == p.1) = true := by
        intro hx
        exact hnd.1 (by
          rw [beq_iff_eq.mp hx]
          exact List.mem_map_of_mem Prod.fst hp2)
      rw [List.find?_cons_of_neg _ (by exact hne)]
      exact find?_self_of_nodup rest hnd.2 p hp2

theorem bucketFold_entry (d : Coord → Coord → ℚ) (flights : List Flight)
    (p : BucketKey × Finset String) (hp : p ∈ bucketFold d flights) :
    p.2 = observedAcids d flights p.1 := by
  have h1 : lookupSW (bucketFold d flights) p.1 = some p.2 := by
    unfold lookupSW
    rw [find?_self_of_nodup _ (bucketFold_keys_nodup d flights) p hp]
    rfl
  rw [lookup_bucketFold] at h1
  by_cases h : flights.any (fun f => contributes d f p.1) = true
  · rw [if_pos h] at h1
    exact (Option.some_inj.mp h1).symm
  · rw [if_neg h] at h1
    exact absurd h1 (by simp)

theorem countP_key_zero (k : BucketKey) (q : Finset String → Bool) (m : SWMap)
    (h : k ∉ m.map Prod.fst) :
    m.countP (fun p => p.1 == k && q p.2) = 0 := by
  rw [List.countP_eq_zero]
  intro p hp
  simp only [Bool.and_eq_true, not_and]
  intro hk
  exact absurd (by
    rw [← beq_iff_eq.mp hk]
    exact List.mem_map_of_mem Prod.fst hp) h

theorem countP_lookup_none (k : BucketKey) (q : Finset String → Bool) :
    ∀ (m : SWMap), lookupSW m k = none →
      m.countP (fun p => p.1 == k && q p.2) = 0
  | [], _ => rfl
  | p :: rest, h => by
    unfold lookupSW at h
    by_cases hk : (p.1 == k) = true
    · rw [List.find?_cons_of_pos _ (by exact hk)] at h
      exact Option.noConfusion h
    · rw [List.find?_cons_of_neg _ (by exact hk)] at h
      rw [List.countP_cons]
      have hcond : (p.1 == k && q p.2) = false := by
        simp [Bool.and_eq_false_iff]
        intro hx
        exact absurd (beq_iff_eq.mpr hx) hk
      rw [hcond]
      simpa using countP_lookup_none k q rest h

theorem countP_lookup_some (k : BucketKey) (q : Finset String → Bool) :
    ∀ (m : SWMap), (m.map Prod.fst).Nodup → ∀ S, lookupSW m k = some S →
      m.countP (fun p => p.1 == k && q p.2) = if q S then 1 else 0
  | [], _, S, h => Option.noConfusion h
  | p :: rest, hnd, S, h => by
    rw [List.map_cons, List.nodup_cons] at hnd
    unfold lookupSW at h
    rw [List.countP_cons]
    by_cases hk : (p.1 == k) = true
    · rw [List.find?_cons_of_pos _ (by exact hk)] at h
      have hS : p.2 = S := by
        simpa using h
      have hzero : rest.countP (fun p => p.1 == k && q p.2) = 0 :=
        countP_key_zero k q rest (by
          rw [← beq_iff_eq.mp hk]
          exact hnd.1)
      rw [hzero, hS]
      simp [hk]
    · rw [List.find?_cons_of_neg _ (by exact hk)] at h
      have hcond : (p.1 == k && q p.2) = false := by
        simp [Bool.and_eq_false_iff]
        intro hx
        exact absurd (beq_iff_eq.mpr hx) hk
      rw [hcond]
      simpa using countP_lookup_some k q rest hnd.2 S h

theorem bucketFold_countP (d : Coord → Coord → ℚ) (flights : List Flight)
    (k : BucketKey) :
    (bucketFold d flights).countP (fun p => p.1 == k && decide (5 < p.2.card)) =
      if 5 < (observedAcids d flights k).card then 1 else 0 := by
  by_cases h : flights.any (fun f => contributes d f k) = true
  · have hl : lookupSW (bucketFold d flights) k = some (observedAcids d flights k) := by
      rw [lookup_bucketFold, if_pos h]
    rw [countP_lookup_some k (fun S => decide (5 < S.card)) (bucketFold d flights)
      (bucketFold_keys_nodup d flights) (observedAcids d flights k) hl]
    simp
  · have hl : lookupSW (bucketFold d flights) k = none := by
      rw [lookup_bucketFold, if_neg h]
    rw [countP_lookup_none k (fun S => decide (5 < S.card)) (bucketFold d flights) hl]
    rw [observedAcids_empty_of_any_false d flights k (by
      cases hx : flights.any (fun f => contributes d f k)
      · rfl
      · exact absurd hx h)]
    simp

theorem countP_filterMap_hot (k : BucketKey) :
    ∀ m : SWMap,
      (m.filterMap hotOf).countP (fun x => hotKey x == k) =
        m.countP (fun p => p.1 == k && decide (5 < p.2.card))
  | [] => rfl
  | p :: rest => by
    have hcase : hotOf p = if 5 < p.2.card then some (mkHot p.1 p.2) else none := rfl
    rw [List.filterMap_cons, hcase, List.countP_cons]
    by_cases h5 : 5 < p.2.card
    · rw [if_pos h5, List.countP_cons, countP_filterMap_hot k rest]
      have heq : (hotKey (mkHot p.1 p.2) == k) = (p.1 == k && decide (5 < p.2.card)) := by
        have hk : hotKey (mkHot p.1 p.2) = p.1 := rfl
        rw [hk, decide_eq_true h5, Bool.and_true]
      rw [heq]
    · rw [if_neg h5, countP_filterMap_hot k rest]
      have heq : (p.1 == k && decide (5 < p.2.card)) = false := by
        simp [h5]
      rw [heq]
      simp

theorem mem_filterMap_hot (m : SWMap) (x : Hotspot)
    (hx : x ∈ m.filterMap hotOf) :
    ∃ p ∈ m, 5 < p.2.card ∧ x = mkHot p.1 p.2 := by
  rcases List.mem_filterMap.mp hx with ⟨p, hp, hpx⟩
  unfold hotOf at hpx
  by_cases h5 : 5 < p.2.card
  · rw [if_pos h5] at hpx
    exact ⟨p, hp, h5, (Option.some_inj.mp hpx).symm⟩
  · rw [if_neg h5] at hpx
    exact Option.noConfusion hpx


theorem detect_fold (d : Coord → Coord → ℚ) :
    ∀ (flights : List Flight) (m : SWMap),
      (flights.foldlM (fun m f => do
          let samples ← estimate_trajectory d f
          Except.ok (samples.foldl (fun m s =>
            let sec := get_sector s.latitude s.longitude
            let window_start := get_time_window s.timestamp
            swAdd m (sec.1, sec.2, window_start) f.acid) m)) m :
        Except String SWMap) =
        if flights.all (estOkB d)
        then Except.ok (flights.foldl (outerStep d) m)
        else Except.error "TypeError: unsupported operand types for +: NoneType and int"
  | [], m => by
    simp only [List.foldlM_nil, List.all_nil, if_true]
    rfl
  | f :: rest, m => by
    rw [List.foldlM_cons, List.all_cons, List.foldl_cons]
    cases hf : estimate_trajectory d f with
    | ok l =>
      have hstep : (do
          let samples ← (Except.ok l : Except String (List PositionSample))
          Except.ok (samples.foldl (fun m s =>
            let sec := get_sector s.latitude s.longitude
            let window_start := get_time_window s.timestamp
            swAdd m (sec.1, sec.2, window_start) f.acid) m) :
          Except String SWMap) = Except.ok (outerStep d m f) := by
        unfold outerStep samplesOf
        rw [hf]
        rfl
      rw [hstep, except_bind_ok_left, detect_fold d rest (outerStep d m f)]
      have hok : estOkB d f = true := by
        unfold estOkB
        rw [hf]
      rw [hok, Bool.true_and]
    | error e =>
      have he := estimate_trajectory_error d f e hf
      have hstep : (do
          let samples ← (Except.error e : Except String (List PositionSample))
          Except.ok (samples.foldl (fun m s =>
            let sec := get_sector s.latitude s.longitude
            let window_start := get_time_window s.timestamp
            swAdd m (sec.1, sec.2, window_start) f.acid) m) :
          Except String SWMap) = Except.error e := rfl
      rw [hstep, except_bind_error_left]
      have hbad : estOkB d f = false := by
        unfold estOkB
        rw [hf]
      rw [hbad, Bool.false_and, if_neg (by simp), he]

/-- Closed form of detect_congestion: when every flight reconstructs, the
result is the sorted hotspot list of the aggregation map built flight by
flight; when any flight raises, the run fails with the TypeError message
of the unguarded departure_time arithmetic. -/
theorem detect_congestion_eq (d : Coord → Coord → ℚ) (flights : List Flight) :
    detect_congestion d flights =
      if flights.all (estOkB d)
      then Except.ok (List.insertionSort hotspotLe
        ((bucketFold d flights).filterMap hotOf))
      else Except.error "TypeError: unsupported operand types for +: NoneType and int" := by
  unfold detect_congestion
  rw [detect_fold d flights []]
  by_cases h : flights.all (estOkB d) = true
  · rw [if_pos h, if_pos h, except_bind_ok_left]
    rfl
  · rw [if_neg h, if_neg h, except_bind_error_left]

theorem sortKeyLe_iff (h1 h2 : Hotspot) : sortKeyLe h1 h2 = true ↔
    (h1.window_start < h2.window_start ∨ (h1.window_start = h2.window_start ∧
      (h1.sector_lat < h2.sector_lat ∨
        (h1.sector_lat = h2.sector_lat ∧ h1.sector_lon ≤ h2.sector_lon)))) := by
  unfold sortKeyLe
  simp [Bool.or_eq_true, Bool.and_eq_true, decide_eq_true_eq, beq_iff_eq]

instance : IsTotal Hotspot hotspotLe :=
  ⟨fun a b => by
    unfold hotspotLe
    rw [sortKeyLe_iff, sortKeyLe_iff]
    omega⟩

instance : IsTrans Hotspot hotspotLe :=
  ⟨fun a b c hab hbc => by
    unfold hotspotLe at hab hbc ⊢
    rw [sortKeyLe_iff] at hab hbc ⊢
    omega⟩

/-- The lexicographic order on bucket keys that the hotspot sort key
induces: ascending window start, then sector latitude, then longitude.
A bucket key stores (sector latitude, sector longitude, window start). -/
def keyLe (k1 k2 : BucketKey) : Prop :=
  k1.2.2 < k2.2.2 ∨ (k1.2.2 = k2.2.2 ∧
    (k1.1 < k2.1 ∨ (k1.1 = k2.1 ∧ k1.2.1 ≤ k2.2.1)))

instance : IsAntisymm BucketKey keyLe :=
  ⟨fun a b hab hba => by
    obtain ⟨a1, a2, a3⟩ := a
    obtain ⟨b1, b2, b3⟩ := b
    unfold keyLe at hab hba
    simp only [Prod.mk.injEq]
    simp only at hab hba
    omega⟩

theorem hotspotLe_key (x y : Hotspot) (h : hotspotLe x y) :
    keyLe (hotKey x) (hotKey y) := by
  unfold hotspotLe at h
  rw [sortKeyLe_iff] at h
  unfold keyLe hotKey
  simpa using h

/-- Any list returned by detect_congestion is the sorted hotspot list of
the aggregation map. -/
theorem detect_ok_shape (d : Coord → Coord → ℚ) (flights : List Flight)
    (hs : List Hotspot) (h : detect_congestion d flights = Except.ok hs) :
    flights.all (estOkB d) = true ∧
      hs = List.insertionSort hotspotLe ((bucketFold d flights).filterMap hotOf) := by
  rw [detect_congestion_eq] at h
  by_cases hall : flights.all (estOkB d) = true
  · rw [if_pos hall] at h
    exact ⟨hall, (Option.some_inj.mp (congrArg Except.toOption h)).symm⟩
  · rw [if_neg hall] at h
    exact absurd h (by simp)

theorem detect_ok_countP (d : Coord → Coord → ℚ) (flights : List Flight)
    (hs : List Hotspot) (h : detect_congestion d flights = Except.ok hs)
    (k : BucketKey) :
    hs.countP (fun x => hotKey x == k) =
      if 5 < (observedAcids d flights k).card then 1 else 0 := by
  rw [(detect_ok_shape d flights hs h).2,
    (List.perm_insertionSort hotspotLe _).countP_eq,
    countP_filterMap_hot, bucketFold_countP]

theorem detect_ok_mem (d : Coord → Coord → ℚ) (flights : List Flight)
    (hs : List Hotspot) (h : detect_congestion d flights = Except.ok hs)
    (x : Hotspot) (hx : x ∈ hs) :
    x = mkHot (hotKey x) (observedAcids d flights (hotKey x)) ∧
      5 < (observedAcids d flights (hotKey x)).card := by
  rw [(detect_ok_shape d flights hs h).2] at hx
  have hx2 : x ∈ (bucketFold d flights).filterMap hotOf :=
    (List.perm_insertionSort hotspotLe _).mem_iff.mp hx
  rcases mem_filterMap_hot _ _ hx2 with ⟨p, hp, h5, rfl⟩
  have hobs := bucketFold_entry d flights p hp
  have hk : hotKey (mkHot p.1 p.2) = p.1 := rfl
  rw [hk]
  rw [hobs] at h5 ⊢
  exact ⟨rfl, h5⟩

theorem detect_ok_sorted (d : Coord → Coord → ℚ) (flights : List Flight)
    (hs : List Hotspot) (h : detect_congestion d flights = Except.ok hs) :
    List.Sorted hotspotLe hs := by
  rw [(detect_ok_shape d flights hs h).2]
  exact List.sorted_insertionSort hotspotLe _


theorem observedAcids_perm (d : Coord → Coord → ℚ) (l1 l2 : List Flight)
    (hperm : l1.Perm l2) (k : BucketKey) :
    observedAcids d l1 k = observedAcids d l2 k := by
  unfold observedAcids
  exact List.toFinset_eq_of_perm _ _ ((hperm.filter _).map _)

theorem all_estOkB_perm (d : Coord → Coord → ℚ) (l1 l2 : List Flight)
    (hperm : l1.Perm l2) : l1.all (estOkB d) = l2.all (estOkB d) := by
  cases h1 : l1.all (estOkB d) <;> cases h2 : l2.all (estOkB d)
  · rfl
  · rw [List.all_eq_true] at h2
    have h1t : l1.all (estOkB d) = true :=
      List.all_eq_true.mpr (fun x hx => h2 x (hperm.mem_iff.mp hx))
    rw [h1] at h1t
    exact Bool.noConfusion h1t
  · rw [List.all_eq_true] at h1
    have h2t : l2.all (estOkB d) = true :=
      List.all_eq_true.mpr (fun x hx => h1 x (hperm.mem_iff.mpr hx))
    rw [h2] at h2t
    exact Bool.noConfusion h2t
  · rfl

theorem sortHot_mem (d : Coord → Coord → ℚ) (flights : List Flight) (x : Hotspot)
    (hx : x ∈ List.insertionSort hotspotLe ((bucketFold d flights).filterMap hotOf)) :
    x = mkHot (hotKey x) (observedAcids d flights (hotKey x)) := by
  have hx2 := (List.perm_insertionSort hotspotLe _).mem_iff.mp hx
  rcases mem_filterMap_hot _ _ hx2 with ⟨p, hp, h5, rfl⟩
  have hobs := bucketFold_entry d flights p hp
  have hk : hotKey (mkHot p.1 p.2) = p.1 := rfl
  rw [hk, ← hobs]

theorem sortHot_countP (d : Coord → Coord → ℚ) (flights : List Flight) (k : BucketKey) :
    (List.insertionSort hotspotLe ((bucketFold d flights).filterMap hotOf)).countP
        (fun x => hotKey x == k) =
      if 5 < (observedAcids d flights k).card then 1 else 0 := by
  rw [(List.perm_insertionSort hotspotLe _).countP_eq, countP_filterMap_hot,
    bucketFold_countP]

theorem count_map_hotKey (L : List Hotspot) (k : BucketKey) :
    @List.count BucketKey instBEqOfDecidableEq k (L.map hotKey) =
      L.countP (fun x => hotKey x == k) := by
  rw [@List.count_eq_countP BucketKey instBEqOfDecidableEq k (L.map hotKey),
    List.countP_map]
  apply List.countP_congr
  intro x _
  show (@BEq.beq BucketKey instBEqOfDecidableEq (hotKey x) k) = true ↔
    (hotKey x == k) = true
  constructor
  · intro h
    exact beq_iff_eq.mpr (of_decide_eq_true h)
  · intro h
    exact decide_eq_true (beq_iff_eq.mp h)

theorem sortedHots_eq (d : Coord → Coord → ℚ) (l1 l2 : List Flight)
    (hperm : l1.Perm l2) :
    List.insertionSort hotspotLe ((bucketFold d l1).filterMap hotOf) =
      List.insertionSort hotspotLe ((bucketFold d l2).filterMap hotOf) := by
  have hA := List.sorted_insertionSort hotspotLe ((bucketFold d l1).filterMap hotOf)
  have hB := List.sorted_insertionSort hotspotLe ((bucketFold d l2).filterMap hotOf)
  have hcnt : ∀ k, @List.count BucketKey instBEqOfDecidableEq k
        ((List.insertionSort hotspotLe
          ((bucketFold d l1).filterMap hotOf)).map hotKey) =
      @List.count BucketKey instBEqOfDecidableEq k
        ((List.insertionSort hotspotLe
          ((bucketFold d l2).filterMap hotOf)).map hotKey) := by
    intro k
    rw [count_map_hotKey, count_map_hotKey, sortHot_countP, sortHot_countP,
      observedAcids_perm d l1 l2 hperm k]
  have hkeysperm : ((List.insertionSort hotspotLe
        ((bucketFold d l1).filterMap hotOf)).map hotKey).Perm
      ((List.insertionSort hotspotLe
        ((bucketFold d l2).filterMap hotOf)).map hotKey) :=
    List.perm_iff_count.mpr hcnt
  have hkeys : ((List.insertionSort hotspotLe
        ((bucketFold d l1).filterMap hotOf)).map hotKey) =
      ((List.insertionSort hotspotLe
        ((bucketFold d l2).filterMap hotOf)).map hotKey) :=
    List.eq_of_perm_of_sorted hkeysperm
      (List.Pairwise.map hotKey hotspotLe_key hA)
      (List.Pairwise.map hotKey hotspotLe_key hB)
  have hrec : ∀ (flights : List Flight),
      List.insertionSort hotspotLe ((bucketFold d flights).filterMap hotOf) =
        ((List.insertionSort hotspotLe
          ((bucketFold d flights).filterMap hotOf)).map hotKey).map
          (fun k => mkHot k (observedAcids d flights k)) := by
    intro flights
    rw [List.map_map]
    calc List.insertionSort hotspotLe ((bucketFold d flights).filterMap hotOf)
        = (List.insertionSort hotspotLe
            ((bucketFold d flights).filterMap hotOf)).map id :=
          (List.map_id _).symm
      _ = _ := List.map_congr_left (fun x hx => sortHot_mem d flights x hx)
  rw [hrec l1, hrec l2, hkeys]
  apply List.map_congr_left
  intro k _
  rw [observedAcids_perm d l1 l2 hperm k]

/-- detect_congestion is invariant under permutation of the input list. -/
theorem detect_congestion_perm (d : Coord → Coord → ℚ) (l1 l2 : List Flight)
    (hperm : l1.Perm l2) :
    detect_congestion d l1 = detect_congestion d l2 := by
  rw [detect_congestion_eq, detect_congestion_eq, all_estOkB_perm d l1 l2 hperm]
  by_cases h : l2.all (estOkB d) = true
  · rw [if_pos h, if_pos h, sortedHots_eq d l1 l2 hperm]
  · rw [if_neg h, if_neg h]


end AirspaceCongestion

/-- A concrete congestion flight: a short route inside sector (49, -111)
flown at 3600 knots from departure time 1000. -/
def congFlight (a : String) : Flight :=
  { acid := a, plane_type := "Boeing 737-800", route := "49.5N/110.5W 49.6N/110.6W",
    altitude := some 30000, departure_airport := "", arrival_airport := "",
    departure_time := some 1000, aircraft_speed := 3600, passengers := 100,
    is_cargo := false }

/-- Six flights through sector (49, -111) in the window starting at 900. -/
def congSix : List Flight :=
  [congFlight "F1", congFlight "F2", congFlight "F3", congFlight "F4",
    congFlight "F5", congFlight "F6"]

/-- Five flights through the same bucket. -/
def congFive : List Flight :=
  [congFlight "F1", congFlight "F2", congFlight "F3", congFlight "F4",
    congFlight "F5"]

/-- The hotspot the six-flight scenario produces. -/
def hot6 : AirspaceCongestion.Hotspot :=
  { sector_lat := 49, sector_lon := -111, window_start := 900, flight_count := 6,
    flights := {"F1", "F2", "F3", "F4", "F5", "F6"} }

theorem cong_test_six :
    AirspaceCongestion.detect_congestion dOne congSix = Except.ok [hot6] := by decide

theorem cong_test_five :
    AirspaceCongestion.detect_congestion dOne congFive = Except.ok [] := by decide

theorem cong_test_card :
    (AirspaceCongestion.observedAcids dOne congSix (49, -111, 900)).card = 6 := by decide

/-- C3: detect_congestion emits a Hotspot for a (sector, 15-minute window)
bucket exactly when the number of distinct flight identifiers observed in
that bucket strictly exceeds 5 (so the hotspot list holds exactly one
record for such a bucket and none otherwise), and the record carries that
distinct count and that flight set.  Instantiated at the six-flight and
five-flight scenarios by the witness. -/
theorem spec_C3_hotspot_threshold (d : Coord → Coord → ℚ) (flights : List Flight)
    (hs : List AirspaceCongestion.Hotspot)
    (h : AirspaceCongestion.detect_congestion d flights = Except.ok hs)
    (k : AirspaceCongestion.BucketKey) :
    hs.countP (fun x => AirspaceCongestion.hotKey x == k) =
      (if 5 < (AirspaceCongestion.observedAcids d flights k).card then 1 else 0) ∧
    ∀ x ∈ hs, AirspaceCongestion.hotKey x = k →
      x.flight_count = (AirspaceCongestion.observedAcids d flights k).card ∧
      x.flights = AirspaceCongestion.observedAcids d flights k := by
  refine ⟨AirspaceCongestion.detect_ok_countP d flights hs h k, ?_⟩
  intro x hx hk
  have hm := (AirspaceCongestion.detect_ok_mem d flights hs h x hx).1
  rw [hk] at hm
  constructor
  · rw [hm]
    rfl
  · rw [hm]
    rfl

/-- Witness for C3: six identical-bucket flights produce exactly one
hotspot with flight_count 6, and five produce none. -/
theorem spec_C3_witness :
    AirspaceCongestion.detect_congestion dOne congSix = Except.ok [hot6] ∧
    5 < (AirspaceCongestion.observedAcids dOne congSix (49, -111, 900)).card ∧
    [hot6].countP (fun x => AirspaceCongestion.hotKey x ==
      ((49, -111, 900) : AirspaceCongestion.BucketKey)) = 1 ∧
    hot6.flight_count = 6 ∧
    AirspaceCongestion.detect_congestion dOne congFive = Except.ok [] :=
  ⟨cong_test_six, by decide,
    by
      rw [(spec_C3_hotspot_threshold dOne congSix [hot6] cong_test_six
        (49, -111, 900)).1]
      decide,
    by decide, cong_test_five⟩

/-- C5: the hotspot list detect_congestion returns is sorted ascending by
(window start, sector latitude, sector longitude), and the whole result of
detect_congestion is unchanged under permutation of the input flight
list. -/
theorem spec_C5_sorted_order_invariant (d : Coord → Coord → ℚ)
    (l1 l2 : List Flight) (hperm : l1.Perm l2) :
    AirspaceCongestion.detect_congestion d l1 =
      AirspaceCongestion.detect_congestion d l2 ∧
    ∀ hs, AirspaceCongestion.detect_congestion d l1 = Except.ok hs →
      hs.Pairwise (fun x y =>
        x.window_start < y.window_start ∨ (x.window_start = y.window_start ∧
          (x.sector_lat < y.sector_lat ∨
            (x.sector_lat = y.sector_lat ∧ x.sector_lon ≤ y.sector_lon)))) := by
  refine ⟨AirspaceCongestion.detect_congestion_perm d l1 l2 hperm, ?_⟩
  intro hs h
  exact List.Pairwise.imp
    (fun hab => (AirspaceCongestion.sortKeyLe_iff _ _).mp hab)
    (AirspaceCongestion.detect_ok_sorted d l1 hs h)

/-- Witness for C5: a concrete two-flight list and its transposition give
the same detect_congestion result. -/
theorem spec_C5_witness :
    ([congFlight "F1", congFlight "F2"] : List Flight).Perm
        [congFlight "F2", congFlight "F1"] ∧
      AirspaceCongestion.detect_congestion dOne [congFlight "F1", congFlight "F2"] =
        AirspaceCongestion.detect_congestion dOne [congFlight "F2", congFlight "F1"] :=
  have hp : ([congFlight "F1", congFlight "F2"] : List Flight).Perm
      [congFlight "F2", congFlight "F1"] :=
    List.Perm.swap (congFlight "F2") (congFlight "F1") []
  ⟨hp, (spec_C5_sorted_order_invariant dOne
    [congFlight "F1", congFlight "F2"] [congFlight "F2", congFlight "F1"] hp).1⟩

